import Mathlib

/-!
# Role and user-group management (`logic/user_mgmt.go`)

A shallow embedding of the role registry and its bootstrap, the user-group
registry and its deletion cascade, the referential-integrity scan of `DeleteRole`
and the access resolver `HasNetworkRsrcScope`, followed by theorems about them.

Conventions of the embedding:

* Go's named string types (`models.UserRole`, `models.RsrcType`, ...) are `String`.
* A Go map is an association list read with `List.lookup` (the first binding of a
  key is the binding of the key); the nil map and the empty map are both `[]`.
* A Go function returning only `error` and writing to the database is a function
  from the state before the call to the state after it paired with the error
  (`none` is Go's `nil`).
* A Go function returning `(value, error)` without writing returns `Except`; the
  one exception is `database.FetchRecord`, whose value is read by `GetUserGroup`
  on the error path as well, and which therefore returns the Go pair.
* `encoding/json` is a parameter (`Codec`).
-/

namespace Netmaker

/-! ## Data model -/

/-- Go `error` values that this file can produce. -/
inductive Error where
  /-- The value of `errors.New(msg)`. -/
  | New (msg : String)
  /-- The record store found no record under the key (`NotFound`). -/
  | NoRecord
  /-- A failure of `json.Marshal` or `json.Unmarshal` (`Decode`). -/
  | Json
  deriving DecidableEq, Repr

abbrev UserRole := String
abbrev RsrcType := String
abbrev RsrcID := String
abbrev UserGroupID := String

/-- Modelled from the spec: `models.RsrcPermissionScope`, whose declaration is not
part of the source file; the permission scope {Read, Create, Update, Delete},
each a boolean. -/
structure RsrcPermissionScope where
  Create : Bool := false
  Read : Bool := false
  Update : Bool := false
  Delete : Bool := false
  deriving DecidableEq, Repr

/-- Modelled from the spec: `models.UserRolePermissionTemplate`, whose declaration
is not part of the source file; the fields are those of the spec's data model,
which are also the ones the source file initialises. `NetworkLevelAccess` is the
Go map `map[RsrcType]map[RsrcID]RsrcPermissionScope`. -/
structure UserRolePermissionTemplate where
  ID : UserRole := ""
  Default : Bool := false
  DenyDashboardAccess : Bool := false
  FullAccess : Bool := false
  IsNetworkRole : Bool := false
  NetworkLevelAccess : List (RsrcType × List (RsrcID × RsrcPermissionScope)) := []
  deriving DecidableEq, Repr

/-- Modelled from the spec: `models.UserGroup`, whose declaration is not part of
the source file; `NetworkRoles` is the collection of role IDs that the source
ranges over by value. The zero value `models.UserGroup{}` is `{}`. -/
structure UserGroup where
  ID : String := ""
  NetworkRoles : List UserRole := []
  deriving DecidableEq, Repr

/-- Modelled from the spec: `models.User`, whose declaration is not part of the
source file; `UserGroups` is the key set of a Go map, `NetworkRoles` the collection
of role IDs that the source ranges over by value, and `UserName` the key of the
record in the user directory. -/
structure User where
  UserName : String := ""
  PlatformRoleID : UserRole := ""
  NetworkRoles : List UserRole := []
  UserGroups : List UserGroupID := []
  deriving DecidableEq, Repr

/-- The (de)serialiser of one entity type: `json.Marshal` and `json.Unmarshal`. -/
structure Codec (α : Type) where
  Marshal : α → Except Error String
  Unmarshal : String → Except Error α

/-! ## Record store and user directory -/

/-- One table of the record store: keys with their serialized payloads. -/
abbrev Table := List (String × String)

/-- The two tables of the record store that the source file names. -/
inductive TableName where
  | USER_PERMISSIONS_TABLE_NAME
  | USER_GROUPS_TABLE_NAME
  deriving DecidableEq, Repr

/-- The state the source file reads and writes: the two tables and the user
directory. -/
structure State where
  roles : Table := []
  groups : Table := []
  users : List User := []
  deriving DecidableEq, Repr

def State.table (s : State) : TableName → Table
  | .USER_PERMISSIONS_TABLE_NAME => s.roles
  | .USER_GROUPS_TABLE_NAME => s.groups

def State.setTable (s : State) (tableName : TableName) (t : Table) : State :=
  match tableName with
  | .USER_PERMISSIONS_TABLE_NAME => { s with roles := t }
  | .USER_GROUPS_TABLE_NAME => { s with groups := t }

/-- Modelled from the spec: `database.Insert`, which is not part of the source
file; `insert(key, value, table)` of the record store, under which a key holds one
payload: the payload replaces what the key held. -/
def Insert (key value : String) (tableName : TableName) (s : State) : State × Option Error :=
  (s.setTable tableName ((key, value) :: (s.table tableName).filter (fun kv => kv.1 != key)), none)

/-- Modelled from the spec: `database.FetchRecord`, which is not part of the source
file; `fetchOne(table, key) → value` of the record store, `NotFound` on an absent
key, where the value returned beside the error is Go's zero string. -/
def FetchRecord (tableName : TableName) (key : String) (s : State) : String × Option Error :=
  match (s.table tableName).lookup key with
  | some value => (value, none)
  | none => ("", some Error.NoRecord)

/-- Modelled from the spec: `database.FetchRecords`, which is not part of the source
file; `fetchAll(table) → list of values` of the record store. -/
def FetchRecords (tableName : TableName) (s : State) : Except Error (List String) :=
  .ok ((s.table tableName).map Prod.snd)

/-- Modelled from the spec: `database.DeleteRecord`, which is not part of the source
file; `delete(table, key)` of the record store. -/
def DeleteRecord (tableName : TableName) (key : String) (s : State) : State × Option Error :=
  (s.setTable tableName ((s.table tableName).filter (fun kv => kv.1 != key)), none)

/-- Modelled from the spec: `GetUsersDB`, which is not part of the source file;
`listAllUsers() → list of User` of the user directory. -/
def GetUsersDB (s : State) : Except Error (List User) :=
  .ok s.users

/-! ## The role registry -/

/-- `CreateRole - inserts new role into DB`. -/
def CreateRole (c : Codec UserRolePermissionTemplate) (r : UserRolePermissionTemplate)
    (s : State) : State × Option Error :=
  if r.ID = "" then
    (s, some (Error.New "role id cannot be empty"))
  else
    match (FetchRecord .USER_PERMISSIONS_TABLE_NAME r.ID s).2 with
    | none => (s, some (Error.New "role already exists"))
    | some _ =>
      match c.Marshal r with
      | .error err => (s, some err)
      | .ok d => Insert r.ID d .USER_PERMISSIONS_TABLE_NAME s

/-- `GetRole - fetches role template by id`. -/
def GetRole (c : Codec UserRolePermissionTemplate) (roleID : String) (s : State) :
    Except Error UserRolePermissionTemplate :=
  match FetchRecord .USER_PERMISSIONS_TABLE_NAME roleID s with
  | (_, some _) => .error (Error.New "role already exists")
  | (data, none) =>
    match c.Unmarshal data with
    | .error err => .error err
    | .ok ur => .ok ur

/-- `UpdateRole - updates role template`. -/
def UpdateRole (c : Codec UserRolePermissionTemplate) (r : UserRolePermissionTemplate)
    (s : State) : State × Option Error :=
  if r.ID = "" then
    (s, some (Error.New "role id cannot be empty"))
  else
    match (FetchRecord .USER_PERMISSIONS_TABLE_NAME r.ID s).2 with
    | some err => (s, some err)
    | none =>
      match c.Marshal r with
      | .error err => (s, some err)
      | .ok d => Insert r.ID d .USER_PERMISSIONS_TABLE_NAME s

/-! ## The user-group registry -/

/-- `CreateUserGroup - creates new user group`. -/
def CreateUserGroup (c : Codec UserGroup) (g : UserGroup) (s : State) : State × Option Error :=
  if g.ID = "" then
    (s, some (Error.New "group id cannot be empty"))
  else
    match (FetchRecord .USER_GROUPS_TABLE_NAME g.ID s).2 with
    | none => (s, some (Error.New "group already exists"))
    | some _ =>
      match c.Marshal g with
      | .error err => (s, some err)
      | .ok d => Insert g.ID d .USER_GROUPS_TABLE_NAME s

/-- `GetUserGroup - fetches user group`. The source returns on `err == nil`: a
record that is found yields the zero group and the nil error, and a record that is
not found sends the zero string that came with the error to `json.Unmarshal`. -/
def GetUserGroup (c : Codec UserGroup) (gid : UserGroupID) (s : State) : Except Error UserGroup :=
  match FetchRecord .USER_GROUPS_TABLE_NAME gid s with
  | (_, none) => .ok {}
  | (d, some _) =>
    match c.Unmarshal d with
    | .error err => .error err
    | .ok ug => .ok ug

/-- `UpdateUserGroup - updates new user group`. -/
def UpdateUserGroup (c : Codec UserGroup) (g : UserGroup) (s : State) : State × Option Error :=
  if g.ID = "" then
    (s, some (Error.New "group id cannot be empty"))
  else
    match (FetchRecord .USER_GROUPS_TABLE_NAME g.ID s).2 with
    | some err => (s, some err)
    | none =>
      match c.Marshal g with
      | .error err => (s, some err)
      | .ok d => Insert g.ID d .USER_GROUPS_TABLE_NAME s

/-! ## Role deletion and its scan of the user population -/

/-- The loop `for userG := range user.UserGroups` of `DeleteRole`: the error it
returns with, or `none` when it runs to its end. -/
def DeleteRole.scanGroups (c : Codec UserGroup) (rid : UserRole) (s : State) :
    List UserGroupID → Option Error
  | [] => none
  | userG :: rest =>
    match GetUserGroup c userG s with
    | .ok ug =>
      if ug.NetworkRoles.contains rid then
        some (Error.New "role cannot be deleted as active user groups are using this role")
      else DeleteRole.scanGroups c rid s rest
    | .error _ => DeleteRole.scanGroups c rid s rest

/-- The loop `for _, user := range users` of `DeleteRole`: the error it returns
with, or `none` when it runs to its end. -/
def DeleteRole.scanUsers (c : Codec UserGroup) (rid : UserRole) (s : State) :
    List User → Option Error
  | [] => none
  | user :: rest =>
    match DeleteRole.scanGroups c rid s user.UserGroups with
    | some err => some err
    | none =>
      if user.PlatformRoleID = rid then
        some (Error.New
          "active roles cannot be deleted.switch existing users to a new role before deleting")
      else if user.NetworkRoles.contains rid then
        some (Error.New
          "active roles cannot be deleted.switch existing users to a new role before deleting")
      else DeleteRole.scanUsers c rid s rest

/-- `DeleteRole - deletes user role`. -/
def DeleteRole (c : Codec UserGroup) (rid : UserRole) (s : State) : State × Option Error :=
  if rid = "" then
    (s, some (Error.New "role id cannot be empty"))
  else
    match GetUsersDB s with
    | .error err => (s, some err)
    | .ok users =>
      match DeleteRole.scanUsers c rid s users with
      | some err => (s, some err)
      | none => DeleteRecord .USER_PERMISSIONS_TABLE_NAME rid s

/-! ## The access resolver -/

/-- `HasNetworkRsrcScope`: whether the template grants the resource. -/
def HasNetworkRsrcScope (permissionTemplate : UserRolePermissionTemplate) (netid : String)
    (rsrcType : RsrcType) (rsrcID : RsrcID) (op : String) : Bool :=
  if permissionTemplate.FullAccess then true
  else
    match permissionTemplate.NetworkLevelAccess.lookup rsrcType with
    | none => false
    | some rsrcScope => (rsrcScope.lookup rsrcID).isSome

/-! ## Default roles and their bootstrap -/

/-- Modelled from the spec: `models.SuperAdminRole`, whose declaration is not part
of the source file; the role ID of the default role super-admin. -/
def SuperAdminRole : UserRole := "super-admin"

/-- Modelled from the spec: `models.AdminRole`, whose declaration is not part of the
source file; the role ID of the default role admin. -/
def AdminRole : UserRole := "admin"

/-- Modelled from the spec: `models.NetworkAdmin`, whose declaration is not part of
the source file; the role ID of the default role network-admin. -/
def NetworkAdmin : UserRole := "network-admin"

/-- Modelled from the spec: `models.NetworkUser`, whose declaration is not part of
the source file; the role ID of the default role network-user. -/
def NetworkUser : UserRole := "network-user"

/-- Modelled from the spec: `models.RemoteAccessGwRsrc`, whose declaration is not
part of the source file; the resource type of remote-access gateways, `remote-gw`
in the spec's scenario. -/
def RemoteAccessGwRsrc : RsrcType := "remote-gw"

/-- Modelled from the spec: `models.AllRemoteAccessGwRsrcID`, whose declaration is
not part of the source file; the reserved "all resources of this type" instance ID
of remote-access gateways, `*` in the spec's scenario. -/
def AllRemoteAccessGwRsrcID : RsrcID := "*"

def SuperAdminPermissionTemplate : UserRolePermissionTemplate :=
  { ID := SuperAdminRole, Default := true, FullAccess := true }

def AdminPermissionTemplate : UserRolePermissionTemplate :=
  { ID := AdminRole, Default := true, FullAccess := true }

def NetworkAdminPermissionTemplate : UserRolePermissionTemplate :=
  { ID := NetworkAdmin, Default := true, IsNetworkRole := true, FullAccess := true,
    NetworkLevelAccess := [] }

def NetworkUserPermissionTemplate : UserRolePermissionTemplate :=
  { ID := NetworkUser, Default := true, FullAccess := false, DenyDashboardAccess := false,
    NetworkLevelAccess := [(RemoteAccessGwRsrc, [(AllRemoteAccessGwRsrcID, { Read := true })])] }

/-- The string `string(d)` after `d, _ := json.Marshal(x)`: the payload, or the
empty string when `json.Marshal` fails (its bytes are nil then). -/
def Codec.marshalString {α : Type} (c : Codec α) (x : α) : String :=
  match c.Marshal x with
  | .ok d => d
  | .error _ => ""

/-- `UserRolesInit`: writes the four default templates; the results of
`json.Marshal` and of `database.Insert` are not checked. -/
def UserRolesInit (c : Codec UserRolePermissionTemplate) (s : State) : State :=
  let s := (Insert SuperAdminPermissionTemplate.ID (c.marshalString SuperAdminPermissionTemplate)
    .USER_PERMISSIONS_TABLE_NAME s).1
  let s := (Insert AdminPermissionTemplate.ID (c.marshalString AdminPermissionTemplate)
    .USER_PERMISSIONS_TABLE_NAME s).1
  let s := (Insert NetworkAdminPermissionTemplate.ID
    (c.marshalString NetworkAdminPermissionTemplate) .USER_PERMISSIONS_TABLE_NAME s).1
  (Insert NetworkUserPermissionTemplate.ID (c.marshalString NetworkUserPermissionTemplate)
    .USER_PERMISSIONS_TABLE_NAME s).1

/-! ## Listing -/

/-- The loop `for _, dataI := range data` of `ListRoles` and of `ListUserGroups`: a
payload that fails to decode is skipped (`continue`), a decoded entity is appended
to the entities collected so far. -/
def listLoop {α : Type} (c : Codec α) : List String → List α → List α
  | [], collected => collected
  | dataI :: data, collected =>
    match c.Unmarshal dataI with
    | .error _ => listLoop c data collected
    | .ok entity => listLoop c data (collected ++ [entity])

/-- `ListRoles - lists user roles permission templates`. -/
def ListRoles (c : Codec UserRolePermissionTemplate) (s : State) :
    Except Error (List UserRolePermissionTemplate) :=
  match FetchRecords .USER_PERMISSIONS_TABLE_NAME s with
  | .error err => .error err
  | .ok data => .ok (listLoop c data [])

/-- `ListUserGroups - lists user groups`. -/
def ListUserGroups (c : Codec UserGroup) (s : State) : Except Error (List UserGroup) :=
  match FetchRecords .USER_GROUPS_TABLE_NAME s with
  | .error err => .error err
  | .ok data => .ok (listLoop c data [])

/-! ## Group deletion -/

/-- Modelled from the spec: `UpsertUser`, which is not part of the source file;
`upsertUser(User)` of the user directory, whose records are keyed by the user name:
the record replaces the one stored under its user name, or is added when the
directory has none. -/
def UpsertUser (user : User) (s : State) : State × Option Error :=
  if s.users.any (fun u => u.UserName == user.UserName) then
    ({ s with users := s.users.map (fun u => if u.UserName = user.UserName then user else u) },
      none)
  else
    ({ s with users := s.users ++ [user] }, none)

/-- The statement `delete(user.UserGroups, gid)` on one user. -/
def deleteUserGroupKey (gid : UserGroupID) (user : User) : User :=
  { user with UserGroups := user.UserGroups.filter (fun g => g != gid) }

/-- The loop `for _, user := range users` of `DeleteUserGroup`; the result of
`UpsertUser` is not checked. -/
def DeleteUserGroup.loop (gid : UserGroupID) : List User → State → State
  | [], s => s
  | user :: users, s =>
    DeleteUserGroup.loop gid users (UpsertUser (deleteUserGroupKey gid user) s).1

/-- `DeleteUserGroup - deletes user group`. -/
def DeleteUserGroup (gid : UserGroupID) (s : State) : State × Option Error :=
  match GetUsersDB s with
  | .error err => (s, some err)
  | .ok users =>
    DeleteRecord .USER_GROUPS_TABLE_NAME gid (DeleteUserGroup.loop gid users s)

/-! ## Vocabulary of the statements -/

/-- The two errors with which `DeleteRole` refuses a role that is in use. -/
def IsRoleInUse (e : Error) : Prop :=
  e = Error.New "role cannot be deleted as active user groups are using this role" ∨
  e = Error.New "active roles cannot be deleted.switch existing users to a new role before deleting"

/-- The table has a record under the key. -/
def HasKey (t : Table) (key : String) : Prop :=
  (t.lookup key).isSome = true

instance (t : Table) (key : String) : Decidable (HasKey t key) := by
  unfold HasKey; infer_instance

/-- A codec that knows the payloads of finitely many entities: it marshals a listed
entity to its payload and unmarshals a listed payload to its entity. -/
def dictCodec {α : Type} [DecidableEq α] (entries : List (α × String)) : Codec α where
  Marshal := fun x =>
    match entries.lookup x with
    | some d => .ok d
    | none => .error Error.Json
  Unmarshal := fun d =>
    match entries.find? (fun e => e.2 == d) with
    | some e => .ok e.1
    | none => .error Error.Json

/-- The four default templates that `UserRolesInit` writes. -/
def defaultTemplates : List UserRolePermissionTemplate :=
  [SuperAdminPermissionTemplate, AdminPermissionTemplate, NetworkAdminPermissionTemplate,
    NetworkUserPermissionTemplate]

/-- The entity that `json.Unmarshal` yields for a payload, if it decodes. -/
def Codec.decode? {α : Type} (c : Codec α) (d : String) : Option α :=
  match c.Unmarshal d with
  | .ok x => some x
  | .error _ => none

/-- One call on the role registry. -/
inductive RoleOp where
  | init
  | create (r : UserRolePermissionTemplate)
  | update (r : UserRolePermissionTemplate)
  | delete (rid : UserRole)

/-- The state after one call on the role registry. -/
def RoleOp.run (rc : Codec UserRolePermissionTemplate) (gc : Codec UserGroup) :
    RoleOp → State → State
  | .init, s => UserRolesInit rc s
  | .create r, s => (CreateRole rc r s).1
  | .update r, s => (UpdateRole rc r s).1
  | .delete rid, s => (DeleteRole gc rid s).1

/-- The state after a sequence of calls on the role registry, first call first. -/
def runRoleOps (rc : Codec UserRolePermissionTemplate) (gc : Codec UserGroup) :
    List RoleOp → State → State
  | [], s => s
  | op :: ops, s => runRoleOps rc gc ops (op.run rc gc s)

/-- The invariant of the role table under a codec: no record is stored under the
empty key, and every record decodes to a template whose ID is the key of the
record. -/
def RoleStoreInv (c : Codec UserRolePermissionTemplate) (t : Table) : Prop :=
  ∀ kv ∈ t, kv.1 ≠ "" ∧ ∃ r, c.Unmarshal kv.2 = .ok r ∧ r.ID = kv.1

/-! ## Examples used by the concrete statements -/

/-- A group that grants the role `viewer`. -/
def devs : UserGroup := { ID := "devs", NetworkRoles := ["viewer"] }

/-- A role template with one scoped resource. -/
def viewer : UserRolePermissionTemplate :=
  { ID := "viewer", IsNetworkRole := true,
    NetworkLevelAccess := [("hosts", [("h1", { Read := true })])] }

/-- A codec that knows the payload of the group `devs`. -/
def groupCodec : Codec UserGroup := dictCodec [(devs, "id=devs;network_roles=viewer")]

/-- A codec that knows the payload of the role `viewer`. -/
def roleCodec : Codec UserRolePermissionTemplate :=
  dictCodec [(viewer, "id=viewer;network_role=true;network_level_access=hosts/h1/read")]

/-- A state in which the role `viewer` is stored, the group `devs` is stored and
grants `viewer`, and the only user is a member of `devs` without a direct
reference to `viewer`. -/
def groupOnlyState : State :=
  { roles := [("viewer", "id=viewer;network_role=true;network_level_access=hosts/h1/read")],
    groups := [("devs", "id=devs;network_roles=viewer")],
    users := [{ UserName := "alice", PlatformRoleID := "admin", UserGroups := ["devs"] }] }

/-- A state in which the role `viewer` is stored and the user `bob` holds it
directly. -/
def directState : State :=
  { roles := [("viewer", "id=viewer;network_role=true;network_level_access=hosts/h1/read")],
    users := [{ UserName := "alice", PlatformRoleID := "admin" },
              { UserName := "bob", PlatformRoleID := "admin", NetworkRoles := ["viewer"] }] }

/-- A state in which the role `viewer` is stored and the only user carries a group
ID that the group table does not hold. -/
def danglingState : State :=
  { roles := [("viewer", "id=viewer;network_role=true;network_level_access=hosts/h1/read")],
    users := [{ UserName := "alice", PlatformRoleID := "admin", UserGroups := ["ghost"] }] }

/-- A state in which the role `admin` is the only stored role and no group is
stored. -/
def adminOnlyState : State :=
  { roles := [("admin", "id=admin;full_access=true")],
    users := [{ UserName := "alice", PlatformRoleID := "admin" }] }

/-- A state whose two tables hold a record under the empty key. -/
def emptyKeyState : State :=
  { roles := [("", "id=")], groups := [("", "id=")] }

/-- A second version of the role `viewer`, which differs from `viewer` in every
field but the ID. -/
def viewerV2 : UserRolePermissionTemplate :=
  { ID := "viewer", Default := true, DenyDashboardAccess := true, FullAccess := true,
    IsNetworkRole := false, NetworkLevelAccess := [] }

/-- A codec that knows the payloads of the four default templates and of the two
versions of `viewer`. -/
def registryCodec : Codec UserRolePermissionTemplate :=
  dictCodec
    [(SuperAdminPermissionTemplate, "id=super-admin;default=true;full_access=true"),
     (AdminPermissionTemplate, "id=admin;default=true;full_access=true"),
     (NetworkAdminPermissionTemplate,
       "id=network-admin;default=true;network_role=true;full_access=true"),
     (NetworkUserPermissionTemplate,
       "id=network-user;default=true;network_level_access=remote-gw/*/read"),
     (viewer, "id=viewer;network_role=true;network_level_access=hosts/h1/read"),
     (viewerV2, "id=viewer;default=true;deny_dashboard_access=true;full_access=true")]

/-- A state with two users who are members of the group `devs`, one of them of the
group `ops` as well, and a third user who is a member of no group. -/
def membersState : State :=
  { roles := [("viewer", "id=viewer;network_role=true;network_level_access=hosts/h1/read")],
    groups := [("devs", "id=devs;network_roles=viewer"), ("ops", "id=ops;network_roles=")],
    users := [{ UserName := "alice", PlatformRoleID := "admin", UserGroups := ["devs", "ops"] },
              { UserName := "bob", PlatformRoleID := "admin", NetworkRoles := ["viewer"],
                UserGroups := ["devs"] },
              { UserName := "carol", PlatformRoleID := "super-admin" }] }

/-- A state whose role table holds a payload that does not decode between two that
do, and whose group table holds one that does not decode after one that does. -/
def corruptState : State :=
  { roles := [("viewer", "id=viewer;network_role=true;network_level_access=hosts/h1/read"),
              ("broken", "id=broken;"),
              ("admin", "id=admin;default=true;full_access=true")],
    groups := [("devs", "id=devs;network_roles=viewer"), ("broken", "id=")] }

/-- A sequence of calls on the role registry: the bootstrap, a create, an update of
the created role, the deletion of a default role, and a create with an empty ID. -/
def registryOps : List RoleOp :=
  [.init, .create viewer, .update viewerV2, .delete "admin", .create { ID := "" }]

/-- A state with an empty role table and one user. -/
def freshState : State :=
  { users := [{ UserName := "alice", PlatformRoleID := "super-admin" }] }

/-! ## Lemmas on tables -/

theorem lookup_filter_ne_key (t : Table) (key k : String) :
    (t.filter (fun kv => kv.1 != key)).lookup k = if k = key then none else t.lookup k := by
  induction t with
  | nil => simp
  | cons kv t ih =>
    obtain ⟨a, b⟩ := kv
    by_cases hak : a = key
    · subst hak
      by_cases hk : k = a
      · subst hk
        simpa using ih
      · have hka : (k == a) = false := by simpa using hk
        simp [List.filter_cons, List.lookup_cons, hka, ih, hk]
    · have hne : (a != key) = true := by simpa using hak
      rw [List.filter_cons, if_pos hne, List.lookup_cons, List.lookup_cons, ih]
      by_cases hk : k = a
      · subst hk
        simp [hak]
      · have hka : (k == a) = false := by simpa using hk
        simp [hka]

theorem table_setTable (s : State) (tableName : TableName) (t : Table) :
    (s.setTable tableName t).table tableName = t := by
  cases tableName <;> rfl

theorem FetchRecord_eq_of_lookup {s : State} {tableName : TableName} {key value : String}
    (h : (s.table tableName).lookup key = some value) :
    FetchRecord tableName key s = (value, none) := by
  simp [FetchRecord, h]

theorem FetchRecord_eq_of_lookup_none {s : State} {tableName : TableName} {key : String}
    (h : (s.table tableName).lookup key = none) :
    FetchRecord tableName key s = ("", some Error.NoRecord) := by
  simp [FetchRecord, h]

theorem FetchRecord_Insert_same (key value : String) (tableName : TableName) (s : State) :
    FetchRecord tableName key (Insert key value tableName s).1 = (value, none) := by
  apply FetchRecord_eq_of_lookup
  simp [Insert, table_setTable, List.lookup_cons]

theorem hasKey_iff_exists (t : Table) (key : String) :
    HasKey t key ↔ ∃ value, t.lookup key = some value := by
  unfold HasKey
  cases t.lookup key <;> simp

theorem not_hasKey_iff (t : Table) (key : String) :
    ¬ HasKey t key ↔ t.lookup key = none := by
  unfold HasKey
  cases t.lookup key <;> simp

theorem hasKey_insert_iff (t : Table) (key value k : String) :
    HasKey ((key, value) :: t.filter (fun kv => kv.1 != key)) k ↔ k = key ∨ HasKey t k := by
  unfold HasKey
  by_cases hk : k = key
  · subst hk
    simp [List.lookup_cons]
  · have hkk : (k == key) = false := by simpa using hk
    simp [List.lookup_cons, hkk, lookup_filter_ne_key, hk]

/-! ## Lemmas on the scan of `DeleteRole` -/

theorem scanGroups_isRoleInUse (c : Codec UserGroup) (rid : UserRole) (s : State)
    (gs : List UserGroupID) (e : Error) (h : DeleteRole.scanGroups c rid s gs = some e) :
    IsRoleInUse e := by
  induction gs with
  | nil => simp [DeleteRole.scanGroups] at h
  | cons g gs ih =>
    unfold DeleteRole.scanGroups at h
    split at h
    · split at h
      · left; exact (Option.some.inj h).symm
      · exact ih h
    · exact ih h

theorem scanUsers_isRoleInUse (c : Codec UserGroup) (rid : UserRole) (s : State)
    (us : List User) (e : Error) (h : DeleteRole.scanUsers c rid s us = some e) :
    IsRoleInUse e := by
  induction us with
  | nil => simp [DeleteRole.scanUsers] at h
  | cons u us ih =>
    unfold DeleteRole.scanUsers at h
    split at h
    · next err hg =>
      cases h
      exact scanGroups_isRoleInUse c rid s _ _ hg
    · split at h
      · right; exact (Option.some.inj h).symm
      · split at h
        · right; exact (Option.some.inj h).symm
        · exact ih h

theorem scanUsers_ne_none_of_direct (c : Codec UserGroup) (rid : UserRole) (s : State)
    (us : List User)
    (h : ∃ u ∈ us, u.PlatformRoleID = rid ∨ rid ∈ u.NetworkRoles) :
    DeleteRole.scanUsers c rid s us ≠ none := by
  induction us with
  | nil => simp at h
  | cons u us ih =>
    unfold DeleteRole.scanUsers
    split
    · simp
    · split
      · simp
      · next hp =>
        split
        · simp
        · next hn =>
          apply ih
          obtain ⟨v, hv, hvr⟩ := h
          rcases List.mem_cons.mp hv with rfl | hv
          · rcases hvr with hvr | hvr
            · exact absurd hvr hp
            · exact absurd (by simpa using hvr) hn
          · exact ⟨v, hv, hvr⟩

/-- For a group ID under which a record is stored, `GetUserGroup` returns the zero
group and no error, whatever the record holds. -/
theorem GetUserGroup_stored (c : Codec UserGroup) (gid : UserGroupID) (s : State)
    (h : HasKey s.groups gid) : GetUserGroup c gid s = .ok {} := by
  obtain ⟨d, hd⟩ := (hasKey_iff_exists _ _).mp h
  have hfetch : FetchRecord .USER_GROUPS_TABLE_NAME gid s = (d, none) :=
    FetchRecord_eq_of_lookup hd
  simp [GetUserGroup, hfetch]

/-- When `json.Unmarshal` rejects the empty payload, `GetUserGroup` never yields a
group with a role: it yields the zero group or an error. -/
theorem GetUserGroup_roles (c : Codec UserGroup) (gid : UserGroupID) (s : State)
    (hempty : ∀ ug, c.Unmarshal "" ≠ .ok ug) (ug : UserGroup)
    (h : GetUserGroup c gid s = .ok ug) : ug = {} := by
  unfold GetUserGroup FetchRecord at h
  split at h
  · next heq =>
    cases h
    rfl
  · next d e heq =>
    split at heq
    · cases heq
    · cases heq
      split at h
      · cases h
      · next ug2 hu => exact absurd hu (hempty ug2)

theorem scanGroups_none (c : Codec UserGroup) (rid : UserRole) (s : State)
    (hempty : ∀ ug, c.Unmarshal "" ≠ .ok ug) (gs : List UserGroupID) :
    DeleteRole.scanGroups c rid s gs = none := by
  induction gs with
  | nil => rfl
  | cons g gs ih =>
    unfold DeleteRole.scanGroups
    split
    · next ug hug =>
      have := GetUserGroup_roles c g s hempty ug hug
      subst this
      simpa using ih
    · exact ih

theorem scanUsers_none (c : Codec UserGroup) (rid : UserRole) (s : State)
    (hempty : ∀ ug, c.Unmarshal "" ≠ .ok ug) (us : List User)
    (h : ∀ u ∈ us, u.PlatformRoleID ≠ rid ∧ rid ∉ u.NetworkRoles) :
    DeleteRole.scanUsers c rid s us = none := by
  induction us with
  | nil => rfl
  | cons u us ih =>
    unfold DeleteRole.scanUsers
    rw [scanGroups_none c rid s hempty]
    have hu := h u (List.mem_cons_self _ _)
    simp only [if_neg hu.1]
    have hn : u.NetworkRoles.contains rid = false := by simpa using hu.2
    simp only [hn]
    exact ih (fun v hv => h v (List.mem_cons_of_mem _ hv))

theorem scanUsers_active (c : Codec UserGroup) (rid : UserRole) (s : State)
    (hempty : ∀ ug, c.Unmarshal "" ≠ .ok ug) (us : List User) (e : Error)
    (h : DeleteRole.scanUsers c rid s us = some e) :
    e = Error.New
      "active roles cannot be deleted.switch existing users to a new role before deleting" := by
  induction us with
  | nil => simp [DeleteRole.scanUsers] at h
  | cons u us ih =>
    unfold DeleteRole.scanUsers at h
    rw [scanGroups_none c rid s hempty] at h
    simp only at h
    split at h
    · exact (Option.some.inj h).symm
    · split at h
      · exact (Option.some.inj h).symm
      · exact ih h

theorem DeleteRole_of_scan_some (c : Codec UserGroup) (rid : UserRole) (s : State) (e : Error)
    (hrid : rid ≠ "") (h : DeleteRole.scanUsers c rid s s.users = some e) :
    DeleteRole c rid s = (s, some e) := by
  simp [DeleteRole, hrid, GetUsersDB, h]

theorem DeleteRole_of_scan_none (c : Codec UserGroup) (rid : UserRole) (s : State)
    (hrid : rid ≠ "") (h : DeleteRole.scanUsers c rid s s.users = none) :
    DeleteRole c rid s = DeleteRecord .USER_PERMISSIONS_TABLE_NAME rid s := by
  simp [DeleteRole, hrid, GetUsersDB, h]

/-! ## The access resolver: full access and scoped access -/

/-- C1: a template with `FullAccess = true` is granted every request: for every
network, resource type, resource ID and operation `HasNetworkRsrcScope` returns
true, whatever `NetworkLevelAccess` holds. -/
theorem HasNetworkRsrcScope_fullAccess (t : UserRolePermissionTemplate)
    (netid : String) (rsrcType : RsrcType) (rsrcID : RsrcID) (op : String)
    (hfull : t.FullAccess = true) :
    HasNetworkRsrcScope t netid rsrcType rsrcID op = true := by
  simp [HasNetworkRsrcScope, hfull]

theorem HasNetworkRsrcScope_fullAccess_witness :
    ({ ID := "admin", FullAccess := true } : UserRolePermissionTemplate).FullAccess = true ∧
    HasNetworkRsrcScope { ID := "admin", FullAccess := true } "net1" "hosts" "h1" "delete"
      = true :=
  ⟨rfl, HasNetworkRsrcScope_fullAccess { ID := "admin", FullAccess := true }
    "net1" "hosts" "h1" "delete" rfl⟩

/-- C2: for a template with `FullAccess = false`, `HasNetworkRsrcScope` returns true
exactly when `NetworkLevelAccess` has an entry for the resource type and that entry
has the resource ID as a key; it returns false when the resource type is absent,
and false when the resource type is present and the resource ID is absent. -/
theorem HasNetworkRsrcScope_scoped (t : UserRolePermissionTemplate)
    (netid : String) (rsrcType : RsrcType) (rsrcID : RsrcID) (op : String)
    (hfull : t.FullAccess = false) :
    (HasNetworkRsrcScope t netid rsrcType rsrcID op = true ↔
      ∃ rsrcScope, t.NetworkLevelAccess.lookup rsrcType = some rsrcScope ∧
        ∃ scope, rsrcScope.lookup rsrcID = some scope) ∧
    (t.NetworkLevelAccess.lookup rsrcType = none →
      HasNetworkRsrcScope t netid rsrcType rsrcID op = false) ∧
    (∀ rsrcScope, t.NetworkLevelAccess.lookup rsrcType = some rsrcScope →
      rsrcScope.lookup rsrcID = none →
      HasNetworkRsrcScope t netid rsrcType rsrcID op = false) := by
  refine ⟨?_, ?_, ?_⟩
  · unfold HasNetworkRsrcScope
    rw [hfull]
    cases hty : t.NetworkLevelAccess.lookup rsrcType with
    | none => simp
    | some rsrcScope =>
      cases hid : rsrcScope.lookup rsrcID <;> simp [hid]
  · intro hty
    simp [HasNetworkRsrcScope, hfull, hty]
  · intro rsrcScope hty hid
    simp [HasNetworkRsrcScope, hfull, hty, hid]

theorem HasNetworkRsrcScope_scoped_witness :
    viewer.FullAccess = false ∧
    HasNetworkRsrcScope viewer "net1" "hosts" "h1" "read" = true ∧
    HasNetworkRsrcScope viewer "net1" "dns" "h1" "read" = false ∧
    HasNetworkRsrcScope viewer "net1" "hosts" "h2" "read" = false :=
  have h := HasNetworkRsrcScope_scoped viewer "net1" "hosts" "h1" "read" rfl
  have hdns := HasNetworkRsrcScope_scoped viewer "net1" "dns" "h1" "read" rfl
  have hh2 := HasNetworkRsrcScope_scoped viewer "net1" "hosts" "h2" "read" rfl
  ⟨rfl, h.1.mpr ⟨[("h1", { Read := true })], by decide, { Read := true }, by decide⟩,
    hdns.2.1 (by decide), hh2.2.2 [("h1", { Read := true })] (by decide) (by decide)⟩


/-! ## Role deletion -/

/-- C3: for a non-empty role ID `rid` and a user population in which some user has
`PlatformRoleID = rid` or has `rid` among its direct `NetworkRoles`, `DeleteRole rid`
fails with a role-in-use error, the state is the one before the call, and a role
record stored under `rid` is still stored under `rid` afterwards. When
`json.Unmarshal` rejects the empty payload the error is the one of the direct
references ("active roles cannot be deleted..."). -/
theorem DeleteRole_direct_reference (c : Codec UserGroup) (rid : UserRole) (s : State)
    (hrid : rid ≠ "")
    (huse : ∃ u ∈ s.users, u.PlatformRoleID = rid ∨ rid ∈ u.NetworkRoles) :
    (∃ e, (DeleteRole c rid s).2 = some e ∧ IsRoleInUse e) ∧
    (DeleteRole c rid s).1 = s ∧
    (∀ d, s.roles.lookup rid = some d → (DeleteRole c rid s).1.roles.lookup rid = some d) ∧
    ((∀ ug, c.Unmarshal "" ≠ .ok ug) →
      (DeleteRole c rid s).2 = some (Error.New
        "active roles cannot be deleted.switch existing users to a new role before deleting")) := by
  have hne := scanUsers_ne_none_of_direct c rid s s.users huse
  obtain ⟨e, he⟩ := Option.ne_none_iff_exists'.mp hne
  have hdel := DeleteRole_of_scan_some c rid s e hrid he
  rw [hdel]
  refine ⟨⟨e, rfl, scanUsers_isRoleInUse c rid s _ e he⟩, rfl, fun d hd => hd, ?_⟩
  intro hempty
  rw [scanUsers_active c rid s hempty _ e he]

theorem DeleteRole_direct_reference_witness :
    ("viewer" : UserRole) ≠ "" ∧
    (∃ u ∈ directState.users, u.PlatformRoleID = "viewer" ∨ "viewer" ∈ u.NetworkRoles) ∧
    (∃ e, (DeleteRole groupCodec "viewer" directState).2 = some e ∧ IsRoleInUse e) ∧
    (DeleteRole groupCodec "viewer" directState).1 = directState :=
  have hrid : ("viewer" : UserRole) ≠ "" := by decide
  have huse : ∃ u ∈ directState.users, u.PlatformRoleID = "viewer" ∨ "viewer" ∈ u.NetworkRoles :=
    ⟨{ UserName := "bob", PlatformRoleID := "admin", NetworkRoles := ["viewer"] },
      by decide, Or.inr (by decide)⟩
  have h := DeleteRole_direct_reference groupCodec "viewer" directState hrid huse
  ⟨hrid, huse, h.1, h.2.1⟩

/-- C4: evaluation of `DeleteRole` on a role that is in use through a group only.
The group `devs` is stored, its payload decodes to a group whose `NetworkRoles`
contain `viewer`, and the user is a member of `devs`; yet `GetUserGroup` yields the
zero group for `devs`, and `DeleteRole "viewer"` returns no error and deletes the
role record. -/
theorem DeleteRole_group_reference_undetected :
    groupOnlyState.groups.lookup "devs" = some "id=devs;network_roles=viewer" ∧
    groupCodec.Unmarshal "id=devs;network_roles=viewer" = .ok devs ∧
    "viewer" ∈ devs.NetworkRoles ∧
    (∃ u ∈ groupOnlyState.users, "devs" ∈ u.UserGroups) ∧
    GetUserGroup groupCodec "devs" groupOnlyState = .ok {} ∧
    DeleteRole groupCodec "viewer" groupOnlyState = ({ groupOnlyState with roles := [] }, none) ∧
    ¬ HasKey (DeleteRole groupCodec "viewer" groupOnlyState).1.roles "viewer" := by
  refine ⟨by decide, rfl, by decide, ?_, rfl, by decide, by decide⟩
  exact ⟨{ UserName := "alice", PlatformRoleID := "admin", UserGroups := ["devs"] },
    by decide, by decide⟩

/-- C5: for a non-empty role ID `rid` that no user references through
`PlatformRoleID`, through its direct `NetworkRoles`, or through the `NetworkRoles` of
a stored group it belongs to, `DeleteRole rid` returns no error and no role record
is stored under `rid` afterwards; group IDs of users that the group table does not
hold do not block the scan. User enumeration and the store delete succeed in every
state; `json.Unmarshal` is taken to reject the empty payload. -/
theorem DeleteRole_unreferenced (c : Codec UserGroup) (rid : UserRole) (s : State)
    (hrid : rid ≠ "")
    (hempty : ∀ ug, c.Unmarshal "" ≠ .ok ug)
    (hdirect : ∀ u ∈ s.users, u.PlatformRoleID ≠ rid ∧ rid ∉ u.NetworkRoles)
    (_hgroups : ∀ u ∈ s.users, ∀ gid ∈ u.UserGroups, ∀ d, s.groups.lookup gid = some d →
      ∀ ug, c.Unmarshal d = .ok ug → rid ∉ ug.NetworkRoles) :
    (DeleteRole c rid s).2 = none ∧ ¬ HasKey (DeleteRole c rid s).1.roles rid := by
  rw [DeleteRole_of_scan_none c rid s hrid (scanUsers_none c rid s hempty _ hdirect)]
  refine ⟨rfl, ?_⟩
  rw [not_hasKey_iff]
  simp [DeleteRecord, State.setTable, State.table, lookup_filter_ne_key]

theorem DeleteRole_unreferenced_witness :
    HasKey danglingState.roles "viewer" ∧
    (∃ u ∈ danglingState.users, ∃ gid ∈ u.UserGroups, ¬ HasKey danglingState.groups gid) ∧
    (DeleteRole groupCodec "viewer" danglingState).2 = none ∧
    ¬ HasKey (DeleteRole groupCodec "viewer" danglingState).1.roles "viewer" :=
  ⟨by decide,
    ⟨{ UserName := "alice", PlatformRoleID := "admin", UserGroups := ["ghost"] },
      by decide, "ghost", by decide, by decide⟩,
    DeleteRole_unreferenced groupCodec "viewer" danglingState (by decide)
      (by intro ug; simp [groupCodec, dictCodec])
      (by decide)
      (by
        intro u _ gid _ d hd
        simp [danglingState] at hd)⟩


/-! ## Create, get and update on the two registries -/

/-- C6: role create/get round trip. For every state and every template `r` whose ID
is non-empty and not a key of the role table, with a codec that marshals `r` to a
payload `d` and unmarshals `d` back to `r`, `CreateRole r` returns no error and
`GetRole r.ID` on the resulting state returns `r`. -/
theorem CreateRole_GetRole_roundtrip (c : Codec UserRolePermissionTemplate) (s : State)
    (r : UserRolePermissionTemplate) (d : String)
    (hid : r.ID ≠ "") (hnew : ¬ HasKey s.roles r.ID)
    (hmarshal : c.Marshal r = .ok d) (hunmarshal : c.Unmarshal d = .ok r) :
    (CreateRole c r s).2 = none ∧ GetRole c r.ID (CreateRole c r s).1 = .ok r := by
  have hfetch : FetchRecord .USER_PERMISSIONS_TABLE_NAME r.ID s = ("", some Error.NoRecord) :=
    FetchRecord_eq_of_lookup_none ((not_hasKey_iff _ _).mp hnew)
  have hcreate : CreateRole c r s = Insert r.ID d .USER_PERMISSIONS_TABLE_NAME s := by
    simp [CreateRole, hid, hfetch, hmarshal]
  rw [hcreate]
  refine ⟨rfl, ?_⟩
  unfold GetRole
  rw [FetchRecord_Insert_same]
  simp [hunmarshal]

theorem CreateRole_GetRole_roundtrip_witness :
    viewer.ID ≠ "" ∧ ¬ HasKey adminOnlyState.roles viewer.ID ∧
    roleCodec.Marshal viewer
      = .ok "id=viewer;network_role=true;network_level_access=hosts/h1/read" ∧
    roleCodec.Unmarshal "id=viewer;network_role=true;network_level_access=hosts/h1/read"
      = .ok viewer ∧
    (CreateRole roleCodec viewer adminOnlyState).2 = none ∧
    GetRole roleCodec viewer.ID (CreateRole roleCodec viewer adminOnlyState).1 = .ok viewer :=
  ⟨by decide, by decide, rfl, rfl,
    CreateRole_GetRole_roundtrip roleCodec adminOnlyState viewer
      "id=viewer;network_role=true;network_level_access=hosts/h1/read"
      (by decide) (by decide) rfl rfl⟩

/-- C7: evaluation of the group create/get sequence. `CreateUserGroup devs` on the
empty state returns no error and stores the payload of `devs`, which decodes to
`devs`; `GetUserGroup devs.ID` on the resulting state returns no error and the zero
group, which differs from `devs` in `ID` and in `NetworkRoles`. -/
theorem CreateUserGroup_GetUserGroup_zero_group :
    devs.ID ≠ "" ∧ ¬ HasKey ({} : State).groups devs.ID ∧
    CreateUserGroup groupCodec devs {}
      = ({ groups := [("devs", "id=devs;network_roles=viewer")] }, none) ∧
    groupCodec.Unmarshal "id=devs;network_roles=viewer" = .ok devs ∧
    GetUserGroup groupCodec devs.ID (CreateUserGroup groupCodec devs {}).1 = .ok {} ∧
    ({} : UserGroup).ID ≠ devs.ID ∧ ({} : UserGroup).NetworkRoles ≠ devs.NetworkRoles := by
  refine ⟨by decide, by decide, by decide, rfl, rfl, by decide, by decide⟩

/-- C8 as stated fails on a record stored under the empty key: the store holds a
record under `r.ID = ""` (resp. `g.ID = ""`), and `CreateRole` (resp.
`CreateUserGroup`) fails with the empty-ID error, which is not the already-exists
error. -/
theorem Create_duplicate_empty_key_counterexample :
    HasKey emptyKeyState.roles ({} : UserRolePermissionTemplate).ID ∧
    (CreateRole roleCodec {} emptyKeyState).2 = some (Error.New "role id cannot be empty") ∧
    (CreateRole roleCodec {} emptyKeyState).2 ≠ some (Error.New "role already exists") ∧
    HasKey emptyKeyState.groups ({} : UserGroup).ID ∧
    (CreateUserGroup groupCodec {} emptyKeyState).2
      = some (Error.New "group id cannot be empty") ∧
    (CreateUserGroup groupCodec {} emptyKeyState).2
      ≠ some (Error.New "group already exists") := by
  refine ⟨by decide, by decide, by decide, by decide, by decide, by decide⟩

/-- C8, amended: for every state in which a record is stored under the non-empty key
`r.ID` (resp. `g.ID`), `CreateRole r` (resp. `CreateUserGroup g`) fails with the
already-exists error and returns the state unchanged, so the stored record is not
overwritten. -/
theorem Create_duplicate_rejected (rc : Codec UserRolePermissionTemplate)
    (gc : Codec UserGroup) (s : State) (r : UserRolePermissionTemplate) (g : UserGroup) :
    (r.ID ≠ "" → HasKey s.roles r.ID →
      CreateRole rc r s = (s, some (Error.New "role already exists"))) ∧
    (g.ID ≠ "" → HasKey s.groups g.ID →
      CreateUserGroup gc g s = (s, some (Error.New "group already exists"))) := by
  constructor
  · intro hid hkey
    obtain ⟨d, hd⟩ := (hasKey_iff_exists _ _).mp hkey
    have hfetch : FetchRecord .USER_PERMISSIONS_TABLE_NAME r.ID s = (d, none) :=
      FetchRecord_eq_of_lookup hd
    simp [CreateRole, hid, hfetch]
  · intro hid hkey
    obtain ⟨d, hd⟩ := (hasKey_iff_exists _ _).mp hkey
    have hfetch : FetchRecord .USER_GROUPS_TABLE_NAME g.ID s = (d, none) :=
      FetchRecord_eq_of_lookup hd
    simp [CreateUserGroup, hid, hfetch]

theorem Create_duplicate_rejected_witness :
    (viewer.ID ≠ "" ∧ HasKey groupOnlyState.roles viewer.ID ∧
      CreateRole roleCodec viewer groupOnlyState
        = (groupOnlyState, some (Error.New "role already exists"))) ∧
    (devs.ID ≠ "" ∧ HasKey groupOnlyState.groups devs.ID ∧
      CreateUserGroup groupCodec devs groupOnlyState
        = (groupOnlyState, some (Error.New "group already exists"))) :=
  have h := Create_duplicate_rejected roleCodec groupCodec groupOnlyState viewer devs
  ⟨⟨by decide, by decide, h.1 (by decide) (by decide)⟩,
    ⟨by decide, by decide, h.2 (by decide) (by decide)⟩⟩

/-- C9: for every state and every template or group whose ID is the empty string,
`CreateRole` and `CreateUserGroup` fail with the invalid-input error ("role id cannot
be empty", "group id cannot be empty") and return the state unchanged, whatever the
other fields are and whether or not a record is stored under the empty key. -/
theorem Create_empty_id_rejected (rc : Codec UserRolePermissionTemplate)
    (gc : Codec UserGroup) (s : State) (r : UserRolePermissionTemplate) (g : UserGroup) :
    (r.ID = "" → CreateRole rc r s = (s, some (Error.New "role id cannot be empty"))) ∧
    (g.ID = "" → CreateUserGroup gc g s = (s, some (Error.New "group id cannot be empty"))) := by
  constructor
  · intro hid
    simp [CreateRole, hid]
  · intro hid
    simp [CreateUserGroup, hid]

theorem Create_empty_id_rejected_witness :
    (CreateRole roleCodec { ID := "", FullAccess := true } emptyKeyState
        = (emptyKeyState, some (Error.New "role id cannot be empty")) ∧
      CreateUserGroup groupCodec { ID := "", NetworkRoles := ["viewer"] } emptyKeyState
        = (emptyKeyState, some (Error.New "group id cannot be empty"))) ∧
    (CreateRole roleCodec { ID := "", FullAccess := true } directState
        = (directState, some (Error.New "role id cannot be empty")) ∧
      CreateUserGroup groupCodec { ID := "", NetworkRoles := ["viewer"] } directState
        = (directState, some (Error.New "group id cannot be empty"))) :=
  have h := Create_empty_id_rejected roleCodec groupCodec emptyKeyState
    { ID := "", FullAccess := true } { ID := "", NetworkRoles := ["viewer"] }
  have h2 := Create_empty_id_rejected roleCodec groupCodec directState
    { ID := "", FullAccess := true } { ID := "", NetworkRoles := ["viewer"] }
  ⟨⟨h.1 rfl, h.2 rfl⟩, ⟨h2.1 rfl, h2.2 rfl⟩⟩


/-- C10: update is strict. For every state with no record under `r.ID` (resp.
`g.ID`), `UpdateRole r` (resp. `UpdateUserGroup g`) fails, with the empty-ID error
when the ID is empty and with the store's not-found error otherwise, and returns
the state unchanged; and an update that returns no error leaves the key set of its
table, the other table and the user directory as they were. -/
theorem Update_strict (rc : Codec UserRolePermissionTemplate) (gc : Codec UserGroup)
    (s : State) (r : UserRolePermissionTemplate) (g : UserGroup) :
    (¬ HasKey s.roles r.ID →
      UpdateRole rc r s
        = (s, some (if r.ID = "" then Error.New "role id cannot be empty" else Error.NoRecord))) ∧
    (¬ HasKey s.groups g.ID →
      UpdateUserGroup gc g s
        = (s, some (if g.ID = "" then Error.New "group id cannot be empty" else Error.NoRecord))) ∧
    ((UpdateRole rc r s).2 = none →
      (∀ k, HasKey (UpdateRole rc r s).1.roles k ↔ HasKey s.roles k) ∧
      (UpdateRole rc r s).1.groups = s.groups ∧ (UpdateRole rc r s).1.users = s.users) ∧
    ((UpdateUserGroup gc g s).2 = none →
      (∀ k, HasKey (UpdateUserGroup gc g s).1.groups k ↔ HasKey s.groups k) ∧
      (UpdateUserGroup gc g s).1.roles = s.roles ∧ (UpdateUserGroup gc g s).1.users = s.users) := by
  refine ⟨?_, ?_, ?_, ?_⟩
  · intro hkey
    have hfetch : FetchRecord .USER_PERMISSIONS_TABLE_NAME r.ID s = ("", some Error.NoRecord) :=
      FetchRecord_eq_of_lookup_none ((not_hasKey_iff _ _).mp hkey)
    by_cases hid : r.ID = ""
    · simp [UpdateRole, hid]
    · simp [UpdateRole, hid, hfetch]
  · intro hkey
    have hfetch : FetchRecord .USER_GROUPS_TABLE_NAME g.ID s = ("", some Error.NoRecord) :=
      FetchRecord_eq_of_lookup_none ((not_hasKey_iff _ _).mp hkey)
    by_cases hid : g.ID = ""
    · simp [UpdateUserGroup, hid]
    · simp [UpdateUserGroup, hid, hfetch]
  · intro hok
    by_cases hid : r.ID = ""
    · simp [UpdateRole, hid] at hok
    · cases hl : s.roles.lookup r.ID with
      | none =>
        have hfetch := @FetchRecord_eq_of_lookup_none s .USER_PERMISSIONS_TABLE_NAME r.ID hl
        simp [UpdateRole, hid, hfetch] at hok
      | some v =>
        have hfetch := @FetchRecord_eq_of_lookup s .USER_PERMISSIONS_TABLE_NAME r.ID v hl
        cases hm : rc.Marshal r with
        | error e => simp [UpdateRole, hid, hfetch, hm] at hok
        | ok d =>
          have hup : UpdateRole rc r s = Insert r.ID d .USER_PERMISSIONS_TABLE_NAME s := by
            simp [UpdateRole, hid, hfetch, hm]
          rw [hup]
          refine ⟨?_, rfl, rfl⟩
          intro k
          show HasKey ((r.ID, d) :: s.roles.filter (fun kv => kv.1 != r.ID)) k ↔ _
          rw [hasKey_insert_iff]
          constructor
          · rintro (rfl | h)
            · exact (hasKey_iff_exists _ _).mpr ⟨v, hl⟩
            · exact h
          · exact Or.inr
  · intro hok
    by_cases hid : g.ID = ""
    · simp [UpdateUserGroup, hid] at hok
    · cases hl : s.groups.lookup g.ID with
      | none =>
        have hfetch := @FetchRecord_eq_of_lookup_none s .USER_GROUPS_TABLE_NAME g.ID hl
        simp [UpdateUserGroup, hid, hfetch] at hok
      | some v =>
        have hfetch := @FetchRecord_eq_of_lookup s .USER_GROUPS_TABLE_NAME g.ID v hl
        cases hm : gc.Marshal g with
        | error e => simp [UpdateUserGroup, hid, hfetch, hm] at hok
        | ok d =>
          have hup : UpdateUserGroup gc g s = Insert g.ID d .USER_GROUPS_TABLE_NAME s := by
            simp [UpdateUserGroup, hid, hfetch, hm]
          rw [hup]
          refine ⟨?_, rfl, rfl⟩
          intro k
          show HasKey ((g.ID, d) :: s.groups.filter (fun kv => kv.1 != g.ID)) k ↔ _
          rw [hasKey_insert_iff]
          constructor
          · rintro (rfl | h)
            · exact (hasKey_iff_exists _ _).mpr ⟨v, hl⟩
            · exact h
          · exact Or.inr

theorem Update_strict_witness :
    (¬ HasKey adminOnlyState.roles viewer.ID ∧
      UpdateRole roleCodec viewer adminOnlyState = (adminOnlyState, some Error.NoRecord)) ∧
    (¬ HasKey adminOnlyState.groups devs.ID ∧
      UpdateUserGroup groupCodec devs adminOnlyState = (adminOnlyState, some Error.NoRecord)) ∧
    ((UpdateRole roleCodec viewer groupOnlyState).2 = none ∧
      ∀ k, HasKey (UpdateRole roleCodec viewer groupOnlyState).1.roles k
        ↔ HasKey groupOnlyState.roles k) ∧
    ((UpdateUserGroup groupCodec devs groupOnlyState).2 = none ∧
      ∀ k, HasKey (UpdateUserGroup groupCodec devs groupOnlyState).1.groups k
        ↔ HasKey groupOnlyState.groups k) :=
  have h := Update_strict roleCodec groupCodec adminOnlyState viewer devs
  have h2 := Update_strict roleCodec groupCodec groupOnlyState viewer devs
  ⟨⟨by decide, h.1 (by decide)⟩, ⟨by decide, h.2.1 (by decide)⟩,
    ⟨by decide, (h2.2.2.1 (by decide)).1⟩, ⟨by decide, (h2.2.2.2 (by decide)).1⟩⟩


/-! ## Update replaces the record -/

theorem lookup_Insert_roles_ne (key value k : String) (s : State) (h : k ≠ key) :
    (Insert key value .USER_PERMISSIONS_TABLE_NAME s).1.roles.lookup k = s.roles.lookup k := by
  have hk : (k == key) = false := by simpa using h
  simp [Insert, State.setTable, State.table, List.lookup_cons, hk, lookup_filter_ne_key, h]

/-- C11: update fully replaces. For every state holding a role record under the
non-empty ID of `r`, with a codec that marshals `r` to a payload `d` and unmarshals
`d` back to `r`, `UpdateRole r` returns no error, `GetRole r.ID` on the resulting
state returns `r` itself whatever the record held before, and the record under
every other key, the group table and the user directory are unchanged. -/
theorem UpdateRole_replaces (c : Codec UserRolePermissionTemplate) (s : State)
    (r : UserRolePermissionTemplate) (d : String)
    (hid : r.ID ≠ "") (hkey : HasKey s.roles r.ID)
    (hmarshal : c.Marshal r = .ok d) (hunmarshal : c.Unmarshal d = .ok r) :
    (UpdateRole c r s).2 = none ∧
    GetRole c r.ID (UpdateRole c r s).1 = .ok r ∧
    (∀ k, k ≠ r.ID → (UpdateRole c r s).1.roles.lookup k = s.roles.lookup k) ∧
    (UpdateRole c r s).1.groups = s.groups ∧ (UpdateRole c r s).1.users = s.users := by
  obtain ⟨old, hold⟩ := (hasKey_iff_exists _ _).mp hkey
  have hfetch : FetchRecord .USER_PERMISSIONS_TABLE_NAME r.ID s = (old, none) :=
    FetchRecord_eq_of_lookup hold
  have hup : UpdateRole c r s = Insert r.ID d .USER_PERMISSIONS_TABLE_NAME s := by
    simp [UpdateRole, hid, hfetch, hmarshal]
  rw [hup]
  refine ⟨rfl, ?_, fun k hk => lookup_Insert_roles_ne _ _ _ _ hk, rfl, rfl⟩
  unfold GetRole
  rw [FetchRecord_Insert_same]
  simp [hunmarshal]

theorem UpdateRole_replaces_witness :
    viewerV2.ID ≠ "" ∧ HasKey groupOnlyState.roles viewerV2.ID ∧
    GetRole registryCodec "viewer" groupOnlyState = .ok viewer ∧
    (UpdateRole registryCodec viewerV2 groupOnlyState).2 = none ∧
    GetRole registryCodec viewerV2.ID (UpdateRole registryCodec viewerV2 groupOnlyState).1
      = .ok viewerV2 :=
  have h := UpdateRole_replaces registryCodec groupOnlyState viewerV2
    "id=viewer;default=true;deny_dashboard_access=true;full_access=true"
    (by decide) (by decide) rfl rfl
  ⟨by decide, by decide, rfl, h.1, h.2.1⟩

/-! ## Group deletion: the cascade and its frame -/

theorem mem_UpsertUser (user v : User) (s : State) (h : v ∈ (UpsertUser user s).1.users) :
    v = user ∨ (v ∈ s.users ∧ v.UserName ≠ user.UserName) := by
  unfold UpsertUser at h
  split at h
  · simp only [List.mem_map] at h
    obtain ⟨w, hw, hv⟩ := h
    by_cases hn : w.UserName = user.UserName
    · left; simpa [hn] using hv.symm
    · right
      rw [if_neg hn] at hv
      subst hv
      exact ⟨hw, hn⟩
  · next hany =>
    simp only [List.mem_append, List.mem_singleton] at h
    rcases h with h | h
    · right
      refine ⟨h, ?_⟩
      intro hn
      apply hany
      simp only [List.any_eq_true]
      exact ⟨v, h, by simpa using hn⟩
    · left; exact h

theorem UpsertUser_tables (user : User) (s : State) :
    (UpsertUser user s).1.roles = s.roles ∧ (UpsertUser user s).1.groups = s.groups := by
  unfold UpsertUser
  split <;> exact ⟨rfl, rfl⟩

theorem DeleteUserGroup_loop_tables (gid : UserGroupID) (users : List User) (s : State) :
    (DeleteUserGroup.loop gid users s).roles = s.roles ∧
    (DeleteUserGroup.loop gid users s).groups = s.groups := by
  induction users generalizing s with
  | nil => exact ⟨rfl, rfl⟩
  | cons u users ih =>
    unfold DeleteUserGroup.loop
    have h := ih (UpsertUser (deleteUserGroupKey gid u) s).1
    have ht := UpsertUser_tables (deleteUserGroupKey gid u) s
    exact ⟨h.1.trans ht.1, h.2.trans ht.2⟩

theorem not_mem_deleteUserGroupKey (gid : UserGroupID) (user : User) :
    gid ∉ (deleteUserGroupKey gid user).UserGroups := by
  simp [deleteUserGroupKey]

theorem DeleteUserGroup_loop_clean (gid : UserGroupID) (users : List User) (s : State)
    (h : ∀ v ∈ s.users, v.UserName ∈ users.map User.UserName ∨ gid ∉ v.UserGroups) :
    ∀ v ∈ (DeleteUserGroup.loop gid users s).users, gid ∉ v.UserGroups := by
  induction users generalizing s with
  | nil =>
    intro v hv
    rcases h v hv with h | h
    · simp at h
    · exact h
  | cons u users ih =>
    unfold DeleteUserGroup.loop
    apply ih
    intro v hv
    rcases mem_UpsertUser _ _ _ hv with rfl | ⟨hvs, hne⟩
    · right; exact not_mem_deleteUserGroupKey gid u
    · rcases h v hvs with hn | hc
      · left
        simp only [List.map_cons, List.mem_cons] at hn
        rcases hn with hn | hn
        · exact absurd hn hne
        · exact hn
      · right; exact hc

/-- C12: for every group ID `gid` and every state, `DeleteUserGroup gid` returns no
error, afterwards no user of the directory has `gid` in its `UserGroups`, and the
group table has no record under `gid`; no user need have held `gid` before. User
enumeration, the upserts and the store delete succeed in every state. -/
theorem DeleteUserGroup_removes (gid : UserGroupID) (s : State) :
    (DeleteUserGroup gid s).2 = none ∧
    (∀ u ∈ (DeleteUserGroup gid s).1.users, gid ∉ u.UserGroups) ∧
    ¬ HasKey (DeleteUserGroup gid s).1.groups gid := by
  have hdel : DeleteUserGroup gid s
      = DeleteRecord .USER_GROUPS_TABLE_NAME gid (DeleteUserGroup.loop gid s.users s) := rfl
  rw [hdel]
  refine ⟨rfl, ?_, ?_⟩
  · intro u hu
    have hu2 : u ∈ (DeleteUserGroup.loop gid s.users s).users := hu
    refine DeleteUserGroup_loop_clean gid s.users s ?_ u hu2
    intro v hv
    left
    exact List.mem_map_of_mem _ hv
  · rw [not_hasKey_iff]
    simp [DeleteRecord, State.setTable, State.table, lookup_filter_ne_key]


/-! ## The access resolver: the reserved ID, the network and the operation -/

/-- C13 as stated fails: the default `NetworkUserPermissionTemplate` lists the
reserved ID `AllRemoteAccessGwRsrcID` under `RemoteAccessGwRsrc`, and is not a
full-access template, yet for the concrete gateway ID `gw1` of that resource type
`HasNetworkRsrcScope` returns false. -/
theorem HasNetworkRsrcScope_reserved_id_counterexample :
    NetworkUserPermissionTemplate.FullAccess = false ∧
    NetworkUserPermissionTemplate.NetworkLevelAccess.lookup RemoteAccessGwRsrc
      = some [(AllRemoteAccessGwRsrcID, { Read := true })] ∧
    HasNetworkRsrcScope NetworkUserPermissionTemplate "net1" RemoteAccessGwRsrc "gw1" "read"
      = false := by
  refine ⟨by decide, by decide, by decide⟩

/-- C13, amended: the reserved all-resources ID is matched as a key like any other
ID. For every non-full-access template whose entry for a resource type contains the
reserved ID, `HasNetworkRsrcScope` returns true for the reserved ID itself, and for
any resource ID it returns true exactly when that ID is a key of the entry; for the
default `NetworkUserPermissionTemplate` it returns true exactly for the resource
type `RemoteAccessGwRsrc` with the resource ID `AllRemoteAccessGwRsrcID`. -/
theorem HasNetworkRsrcScope_reserved_id (t : UserRolePermissionTemplate)
    (rsrcType : RsrcType) (rsrcScope : List (RsrcID × RsrcPermissionScope))
    (netid : String) (rsrcID : RsrcID) (op : String)
    (hfull : t.FullAccess = false)
    (hty : t.NetworkLevelAccess.lookup rsrcType = some rsrcScope)
    (hall : (rsrcScope.lookup AllRemoteAccessGwRsrcID).isSome = true) :
    HasNetworkRsrcScope t netid rsrcType AllRemoteAccessGwRsrcID op = true ∧
    (HasNetworkRsrcScope t netid rsrcType rsrcID op = true ↔
      (rsrcScope.lookup rsrcID).isSome = true) ∧
    (HasNetworkRsrcScope NetworkUserPermissionTemplate netid rsrcType rsrcID op = true ↔
      rsrcType = RemoteAccessGwRsrc ∧ rsrcID = AllRemoteAccessGwRsrcID) := by
  refine ⟨?_, ?_, ?_⟩
  · simp [HasNetworkRsrcScope, hfull, hty, hall]
  · simp [HasNetworkRsrcScope, hfull, hty]
  · unfold HasNetworkRsrcScope NetworkUserPermissionTemplate
    by_cases h1 : rsrcType = RemoteAccessGwRsrc
    · subst h1
      by_cases h2 : rsrcID = AllRemoteAccessGwRsrcID
      · subst h2
        simp [List.lookup_cons]
      · have h2b : (rsrcID == AllRemoteAccessGwRsrcID) = false := by simpa using h2
        simp [List.lookup_cons, h2b, h2]
    · have h1b : (rsrcType == RemoteAccessGwRsrc) = false := by simpa using h1
      simp [List.lookup_cons, h1b, h1]

theorem HasNetworkRsrcScope_reserved_id_witness :
    NetworkUserPermissionTemplate.FullAccess = false ∧
    HasNetworkRsrcScope NetworkUserPermissionTemplate "net1" RemoteAccessGwRsrc
      AllRemoteAccessGwRsrcID "read" = true ∧
    (HasNetworkRsrcScope NetworkUserPermissionTemplate "net1" RemoteAccessGwRsrc "gw1" "read"
        = true ↔
      (([(AllRemoteAccessGwRsrcID, { Read := true })] :
        List (RsrcID × RsrcPermissionScope)).lookup "gw1").isSome = true) :=
  have h := HasNetworkRsrcScope_reserved_id NetworkUserPermissionTemplate RemoteAccessGwRsrc
    [(AllRemoteAccessGwRsrcID, { Read := true })] "net1" "gw1" "read"
    (by decide) (by decide) (by decide)
  ⟨by decide, h.1, h.2.1⟩

/-- C14: `HasNetworkRsrcScope` depends neither on the network nor on the requested
operation: for every template, resource type and resource ID, two calls with any two
networks and any two operations return the same boolean, and a template whose entry
holds the resource ID grants every operation whatever the Read, Create, Update and
Delete flags of the entry are. The template with `FullAccess` false and
`NetworkLevelAccess` {"remote-gw": {"*": {Read: true}}} queried with
("net1", "remote-gw", "*", "write") returns true. -/
theorem HasNetworkRsrcScope_ignores_netid_op :
    (∀ (t : UserRolePermissionTemplate) (rsrcType : RsrcType) (rsrcID : RsrcID)
        (netid1 op1 netid2 op2 : String),
      HasNetworkRsrcScope t netid1 rsrcType rsrcID op1
        = HasNetworkRsrcScope t netid2 rsrcType rsrcID op2) ∧
    (∀ (id : UserRole) (rsrcType : RsrcType) (rsrcID : RsrcID) (scope : RsrcPermissionScope)
        (netid op : String),
      HasNetworkRsrcScope
        { ID := id, FullAccess := false, NetworkLevelAccess := [(rsrcType, [(rsrcID, scope)])] }
        netid rsrcType rsrcID op = true) ∧
    HasNetworkRsrcScope
      { ID := "net-user", FullAccess := false,
        NetworkLevelAccess := [("remote-gw", [("*", { Read := true })])] }
      "net1" "remote-gw" "*" "write" = true := by
  refine ⟨fun _ _ _ _ _ _ _ => rfl, ?_, by decide⟩
  intro id rsrcType rsrcID scope netid op
  simp [HasNetworkRsrcScope, List.lookup_cons]


/-! ## Bootstrap of the default roles -/

theorem UserRolesInit_roles (c : Codec UserRolePermissionTemplate) (s : State) :
    (UserRolesInit c s).roles
      = (NetworkUser, c.marshalString NetworkUserPermissionTemplate) ::
        (NetworkAdmin, c.marshalString NetworkAdminPermissionTemplate) ::
        (AdminRole, c.marshalString AdminPermissionTemplate) ::
        (SuperAdminRole, c.marshalString SuperAdminPermissionTemplate) ::
        s.roles.filter (fun kv => kv.1 != NetworkUser && (kv.1 != NetworkAdmin &&
          (kv.1 != AdminRole && kv.1 != SuperAdminRole))) := by
  simp [UserRolesInit, Insert, State.setTable, State.table, List.filter_cons,
    SuperAdminPermissionTemplate, AdminPermissionTemplate, NetworkAdminPermissionTemplate,
    NetworkUserPermissionTemplate, SuperAdminRole, AdminRole, NetworkAdmin, NetworkUser,
    List.filter_filter]

theorem UserRolesInit_frame (c : Codec UserRolePermissionTemplate) (s : State) :
    (UserRolesInit c s).groups = s.groups ∧ (UserRolesInit c s).users = s.users :=
  ⟨rfl, rfl⟩

theorem State.ext_fields (s t : State) (hr : s.roles = t.roles) (hg : s.groups = t.groups)
    (hu : s.users = t.users) : s = t := by
  cases s; cases t; simp_all

theorem UserRolesInit_twice (c : Codec UserRolePermissionTemplate) (s : State) :
    UserRolesInit c (UserRolesInit c s) = UserRolesInit c s := by
  apply State.ext_fields
  · rw [UserRolesInit_roles c (UserRolesInit c s), UserRolesInit_roles c s]
    simp [List.filter_cons, List.filter_filter, SuperAdminRole, AdminRole, NetworkAdmin,
      NetworkUser]
  · rfl
  · rfl

theorem marshalString_of_ok {α : Type} (c : Codec α) (x : α) (d : String)
    (h : c.Marshal x = .ok d) : c.marshalString x = d := by
  simp [Codec.marshalString, h]

theorem GetRole_of_lookup (c : Codec UserRolePermissionTemplate) (s : State) (roleID d : String)
    (r : UserRolePermissionTemplate) (hl : s.roles.lookup roleID = some d)
    (hu : c.Unmarshal d = .ok r) : GetRole c roleID s = .ok r := by
  have hfetch : FetchRecord .USER_PERMISSIONS_TABLE_NAME roleID s = (d, none) :=
    FetchRecord_eq_of_lookup hl
  simp [GetRole, hfetch, hu]

/-- C15: bootstrap is idempotent. For every state, running `UserRolesInit` twice
yields the state that running it once yields; and with a codec that marshals each
of the four default templates to a payload that it unmarshals back to the template,
`GetRole` after `UserRolesInit` returns, for each of the four default role IDs, the
predefined template of that ID; the records under other keys, the group table and
the user directory are unchanged. -/
theorem UserRolesInit_idempotent (c : Codec UserRolePermissionTemplate) (s : State)
    (hcodec : ∀ t ∈ defaultTemplates, ∃ d, c.Marshal t = .ok d ∧ c.Unmarshal d = .ok t) :
    UserRolesInit c (UserRolesInit c s) = UserRolesInit c s ∧
    GetRole c SuperAdminRole (UserRolesInit c s) = .ok SuperAdminPermissionTemplate ∧
    GetRole c AdminRole (UserRolesInit c s) = .ok AdminPermissionTemplate ∧
    GetRole c NetworkAdmin (UserRolesInit c s) = .ok NetworkAdminPermissionTemplate ∧
    GetRole c NetworkUser (UserRolesInit c s) = .ok NetworkUserPermissionTemplate ∧
    (∀ k, k ≠ SuperAdminRole → k ≠ AdminRole → k ≠ NetworkAdmin → k ≠ NetworkUser →
      (UserRolesInit c s).roles.lookup k = s.roles.lookup k) ∧
    (UserRolesInit c s).groups = s.groups ∧ (UserRolesInit c s).users = s.users := by
  obtain ⟨d1, hm1, hu1⟩ := hcodec SuperAdminPermissionTemplate (by simp [defaultTemplates])
  obtain ⟨d2, hm2, hu2⟩ := hcodec AdminPermissionTemplate (by simp [defaultTemplates])
  obtain ⟨d3, hm3, hu3⟩ := hcodec NetworkAdminPermissionTemplate (by simp [defaultTemplates])
  obtain ⟨d4, hm4, hu4⟩ := hcodec NetworkUserPermissionTemplate (by simp [defaultTemplates])
  have hroles := UserRolesInit_roles c s
  rw [marshalString_of_ok c _ d1 hm1, marshalString_of_ok c _ d2 hm2,
    marshalString_of_ok c _ d3 hm3, marshalString_of_ok c _ d4 hm4] at hroles
  refine ⟨UserRolesInit_twice c s, ?_, ?_, ?_, ?_, ?_, rfl, rfl⟩
  · apply GetRole_of_lookup c _ _ d1 _ _ hu1
    rw [hroles]
    simp [List.lookup_cons, SuperAdminRole, AdminRole, NetworkAdmin, NetworkUser]
  · apply GetRole_of_lookup c _ _ d2 _ _ hu2
    rw [hroles]
    simp [List.lookup_cons, SuperAdminRole, AdminRole, NetworkAdmin, NetworkUser]
  · apply GetRole_of_lookup c _ _ d3 _ _ hu3
    rw [hroles]
    simp [List.lookup_cons, SuperAdminRole, AdminRole, NetworkAdmin, NetworkUser]
  · apply GetRole_of_lookup c _ _ d4 _ _ hu4
    rw [hroles]
    simp [List.lookup_cons, SuperAdminRole, AdminRole, NetworkAdmin, NetworkUser]
  · intro k h1 h2 h3 h4
    rw [hroles]
    have e1 : (k == SuperAdminRole) = false := by simpa using h1
    have e2 : (k == AdminRole) = false := by simpa using h2
    have e3 : (k == NetworkAdmin) = false := by simpa using h3
    have e4 : (k == NetworkUser) = false := by simpa using h4
    simp only [List.lookup_cons, e1, e2, e3, e4]
    rw [← List.filter_filter, ← List.filter_filter, ← List.filter_filter]
    simp only [lookup_filter_ne_key, if_neg h1, if_neg h2, if_neg h3, if_neg h4]

theorem UserRolesInit_idempotent_witness :
    (∀ t ∈ defaultTemplates,
      ∃ d, registryCodec.Marshal t = .ok d ∧ registryCodec.Unmarshal d = .ok t) ∧
    UserRolesInit registryCodec (UserRolesInit registryCodec adminOnlyState)
      = UserRolesInit registryCodec adminOnlyState ∧
    GetRole registryCodec NetworkUser (UserRolesInit registryCodec adminOnlyState)
      = .ok NetworkUserPermissionTemplate :=
  have hcodec : ∀ t ∈ defaultTemplates,
      ∃ d, registryCodec.Marshal t = .ok d ∧ registryCodec.Unmarshal d = .ok t := by
    intro t ht
    simp only [defaultTemplates, List.mem_cons, List.mem_singleton, List.not_mem_nil,
      or_false] at ht
    rcases ht with rfl | rfl | rfl | rfl
    · exact ⟨_, rfl, rfl⟩
    · exact ⟨_, rfl, rfl⟩
    · exact ⟨_, rfl, rfl⟩
    · exact ⟨_, rfl, rfl⟩
  have h := UserRolesInit_idempotent registryCodec adminOnlyState hcodec
  ⟨hcodec, h.1, h.2.2.2.2.1⟩


/-! ## Listing -/

theorem listLoop_eq {α : Type} (c : Codec α) (data : List String) (collected : List α) :
    listLoop c data collected = collected ++ data.filterMap c.decode? := by
  induction data generalizing collected with
  | nil => simp [listLoop]
  | cons dataI data ih =>
    unfold listLoop
    cases h : c.Unmarshal dataI with
    | error e => simp [ih, List.filterMap_cons, Codec.decode?, h]
    | ok entity => simp [ih, List.filterMap_cons, Codec.decode?, h]

theorem length_filterMap_decode {α : Type} (c : Codec α) (data : List String) :
    (data.filterMap c.decode?).length = data.countP (fun d => (c.decode? d).isSome) := by
  induction data with
  | nil => rfl
  | cons d data ih =>
    cases h : c.decode? d with
    | none => simp [List.filterMap_cons, List.countP_cons, h, ih]
    | some x => simp [List.filterMap_cons, List.countP_cons, h, ih]

/-- C16: whenever the store's fetch-all returns the payloads `data`, `ListRoles`
(and likewise `ListUserGroups`) returns no error and exactly the decodings of the
payloads of `data` that decode, in the order of `data`; the payloads that fail to
decode are skipped, and the length of the result is the number of payloads that
decode. -/
theorem List_skips_malformed (rc : Codec UserRolePermissionTemplate) (gc : Codec UserGroup)
    (s : State) (roleData groupData : List String)
    (hroles : FetchRecords .USER_PERMISSIONS_TABLE_NAME s = .ok roleData)
    (hgroups : FetchRecords .USER_GROUPS_TABLE_NAME s = .ok groupData) :
    ListRoles rc s = .ok (roleData.filterMap rc.decode?) ∧
    (roleData.filterMap rc.decode?).length
      = roleData.countP (fun d => (rc.decode? d).isSome) ∧
    ListUserGroups gc s = .ok (groupData.filterMap gc.decode?) ∧
    (groupData.filterMap gc.decode?).length
      = groupData.countP (fun d => (gc.decode? d).isSome) := by
  refine ⟨?_, length_filterMap_decode rc roleData, ?_, length_filterMap_decode gc groupData⟩
  · simp [ListRoles, hroles, listLoop_eq]
  · simp [ListUserGroups, hgroups, listLoop_eq]

theorem List_skips_malformed_witness :
    FetchRecords .USER_PERMISSIONS_TABLE_NAME corruptState
      = .ok ["id=viewer;network_role=true;network_level_access=hosts/h1/read", "id=broken;",
          "id=admin;default=true;full_access=true"] ∧
    registryCodec.decode? "id=broken;" = none ∧
    ListRoles registryCodec corruptState = .ok [viewer, AdminPermissionTemplate] ∧
    ListUserGroups groupCodec corruptState = .ok [devs] :=
  have h := List_skips_malformed registryCodec groupCodec corruptState
    ["id=viewer;network_role=true;network_level_access=hosts/h1/read", "id=broken;",
      "id=admin;default=true;full_access=true"]
    ["id=devs;network_roles=viewer", "id="] rfl rfl
  ⟨rfl, rfl, h.1, h.2.2.1⟩


/-! ## The errors of `GetRole` -/

/-- C17: `GetRole id` returns an error exactly when the role table has no record
under `id` or the payload stored under `id` fails to decode; with no record it
fails with the error that the source gives to a missing record (its not-found
error, `errors.New("role already exists")`), and with a record whose payload decodes
it returns the decoding and no error. -/
theorem GetRole_error_iff (c : Codec UserRolePermissionTemplate) (roleID : String) (s : State) :
    ((∃ e, GetRole c roleID s = .error e) ↔
      (¬ HasKey s.roles roleID ∨
        ∃ d e, s.roles.lookup roleID = some d ∧ c.Unmarshal d = .error e)) ∧
    (¬ HasKey s.roles roleID →
      GetRole c roleID s = .error (Error.New "role already exists")) ∧
    (∀ d r, s.roles.lookup roleID = some d → c.Unmarshal d = .ok r →
      GetRole c roleID s = .ok r) := by
  have hmissing : ¬ HasKey s.roles roleID →
      GetRole c roleID s = .error (Error.New "role already exists") := by
    intro hkey
    have hfetch : FetchRecord .USER_PERMISSIONS_TABLE_NAME roleID s
        = ("", some Error.NoRecord) :=
      FetchRecord_eq_of_lookup_none ((not_hasKey_iff _ _).mp hkey)
    simp [GetRole, hfetch]
  refine ⟨?_, hmissing, fun d r hl hu => GetRole_of_lookup c s roleID d r hl hu⟩
  constructor
  · rintro ⟨e, he⟩
    cases hl : s.roles.lookup roleID with
    | none => exact Or.inl ((not_hasKey_iff _ _).mpr hl)
    | some d =>
      right
      cases hu : c.Unmarshal d with
      | error e2 => exact ⟨d, e2, rfl, hu⟩
      | ok r =>
        rw [GetRole_of_lookup c s roleID d r hl hu] at he
        cases he
  · rintro (hkey | ⟨d, e, hl, hu⟩)
    · exact ⟨_, hmissing hkey⟩
    · have hfetch : FetchRecord .USER_PERMISSIONS_TABLE_NAME roleID s = (d, none) :=
        FetchRecord_eq_of_lookup hl
      exact ⟨e, by simp [GetRole, hfetch, hu]⟩

theorem GetRole_error_iff_witness :
    (¬ HasKey corruptState.roles "editor" ∧
      GetRole registryCodec "editor" corruptState = .error (Error.New "role already exists")) ∧
    (corruptState.roles.lookup "broken" = some "id=broken;" ∧
      registryCodec.Unmarshal "id=broken;" = .error Error.Json ∧
      ∃ e, GetRole registryCodec "broken" corruptState = .error e) ∧
    GetRole registryCodec "viewer" corruptState = .ok viewer :=
  have h := GetRole_error_iff registryCodec "editor" corruptState
  have hb := GetRole_error_iff registryCodec "broken" corruptState
  have hv := GetRole_error_iff registryCodec "viewer" corruptState
  ⟨⟨by decide, h.2.1 (by decide)⟩,
    ⟨by decide, rfl, hb.1.mpr (Or.inr ⟨"id=broken;", Error.Json, by decide, rfl⟩)⟩,
    hv.2.2 "id=viewer;network_role=true;network_level_access=hosts/h1/read" viewer
      (by decide) rfl⟩


/-! ## The invariant of the role table -/

theorem mem_of_lookup_eq_some (t : Table) (k d : String) (h : t.lookup k = some d) :
    (k, d) ∈ t := by
  induction t with
  | nil => simp at h
  | cons kv t ih =>
    obtain ⟨a, b⟩ := kv
    rw [List.lookup_cons] at h
    by_cases hk : k = a
    · subst hk
      simp at h
      subst h
      exact List.mem_cons_self _ _
    · have hka : (k == a) = false := by simpa using hk
      rw [hka] at h
      exact List.mem_cons_of_mem _ (ih h)

theorem RoleStoreInv_nil (c : Codec UserRolePermissionTemplate) : RoleStoreInv c [] := by
  intro kv hkv
  simp at hkv

theorem RoleStoreInv_filter (c : Codec UserRolePermissionTemplate) (t : Table)
    (p : String × String → Bool) (h : RoleStoreInv c t) : RoleStoreInv c (t.filter p) :=
  fun kv hkv => h kv (List.mem_of_mem_filter hkv)

theorem RoleStoreInv_cons (c : Codec UserRolePermissionTemplate) (t : Table)
    (r : UserRolePermissionTemplate) (d : String) (hid : r.ID ≠ "")
    (hu : c.Unmarshal d = .ok r) (h : RoleStoreInv c t) : RoleStoreInv c ((r.ID, d) :: t) := by
  intro kv hkv
  rcases List.mem_cons.mp hkv with rfl | hkv
  · exact ⟨hid, r, hu, rfl⟩
  · exact h kv hkv

theorem RoleStoreInv_Insert (c : Codec UserRolePermissionTemplate) (s : State)
    (r : UserRolePermissionTemplate) (d : String) (hid : r.ID ≠ "")
    (hu : c.Unmarshal d = .ok r) (h : RoleStoreInv c s.roles) :
    RoleStoreInv c (Insert r.ID d .USER_PERMISSIONS_TABLE_NAME s).1.roles :=
  RoleStoreInv_cons c _ r d hid hu (RoleStoreInv_filter c _ _ h)

theorem RoleStoreInv_CreateRole (c : Codec UserRolePermissionTemplate) (s : State)
    (r : UserRolePermissionTemplate)
    (hlaw : ∀ r d, c.Marshal r = .ok d → c.Unmarshal d = .ok r)
    (h : RoleStoreInv c s.roles) : RoleStoreInv c (CreateRole c r s).1.roles := by
  unfold CreateRole
  split
  · exact h
  · next hid =>
    split
    · exact h
    · split
      · exact h
      · next d hm => exact RoleStoreInv_Insert c s r d hid (hlaw r d hm) h

theorem RoleStoreInv_UpdateRole (c : Codec UserRolePermissionTemplate) (s : State)
    (r : UserRolePermissionTemplate)
    (hlaw : ∀ r d, c.Marshal r = .ok d → c.Unmarshal d = .ok r)
    (h : RoleStoreInv c s.roles) : RoleStoreInv c (UpdateRole c r s).1.roles := by
  unfold UpdateRole
  split
  · exact h
  · next hid =>
    split
    · exact h
    · split
      · exact h
      · next d hm => exact RoleStoreInv_Insert c s r d hid (hlaw r d hm) h

theorem RoleStoreInv_DeleteRole (rc : Codec UserRolePermissionTemplate) (gc : Codec UserGroup)
    (s : State) (rid : UserRole) (h : RoleStoreInv rc s.roles) :
    RoleStoreInv rc (DeleteRole gc rid s).1.roles := by
  unfold DeleteRole
  split
  · exact h
  · simp only [GetUsersDB]
    split
    · exact h
    · exact RoleStoreInv_filter rc _ _ h

theorem RoleStoreInv_UserRolesInit (c : Codec UserRolePermissionTemplate) (s : State)
    (hlaw : ∀ r d, c.Marshal r = .ok d → c.Unmarshal d = .ok r)
    (hdef : ∀ t ∈ defaultTemplates, ∃ d, c.Marshal t = .ok d)
    (h : RoleStoreInv c s.roles) : RoleStoreInv c (UserRolesInit c s).roles := by
  obtain ⟨d1, hm1⟩ := hdef SuperAdminPermissionTemplate (by simp [defaultTemplates])
  obtain ⟨d2, hm2⟩ := hdef AdminPermissionTemplate (by simp [defaultTemplates])
  obtain ⟨d3, hm3⟩ := hdef NetworkAdminPermissionTemplate (by simp [defaultTemplates])
  obtain ⟨d4, hm4⟩ := hdef NetworkUserPermissionTemplate (by simp [defaultTemplates])
  rw [UserRolesInit_roles, marshalString_of_ok c _ d1 hm1, marshalString_of_ok c _ d2 hm2,
    marshalString_of_ok c _ d3 hm3, marshalString_of_ok c _ d4 hm4]
  exact RoleStoreInv_cons c _ NetworkUserPermissionTemplate d4 (by decide) (hlaw _ _ hm4)
    (RoleStoreInv_cons c _ NetworkAdminPermissionTemplate d3 (by decide) (hlaw _ _ hm3)
      (RoleStoreInv_cons c _ AdminPermissionTemplate d2 (by decide) (hlaw _ _ hm2)
        (RoleStoreInv_cons c _ SuperAdminPermissionTemplate d1 (by decide) (hlaw _ _ hm1)
          (RoleStoreInv_filter c _ _ h))))

theorem RoleStoreInv_runRoleOps (rc : Codec UserRolePermissionTemplate) (gc : Codec UserGroup)
    (ops : List RoleOp) (s : State)
    (hlaw : ∀ r d, rc.Marshal r = .ok d → rc.Unmarshal d = .ok r)
    (hdef : ∀ t ∈ defaultTemplates, ∃ d, rc.Marshal t = .ok d)
    (h : RoleStoreInv rc s.roles) : RoleStoreInv rc (runRoleOps rc gc ops s).roles := by
  induction ops generalizing s with
  | nil => exact h
  | cons op ops ih =>
    unfold runRoleOps
    apply ih
    cases op with
    | init => exact RoleStoreInv_UserRolesInit rc s hlaw hdef h
    | create r => exact RoleStoreInv_CreateRole rc s r hlaw h
    | update r => exact RoleStoreInv_UpdateRole rc s r hlaw h
    | delete rid => exact RoleStoreInv_DeleteRole rc gc s rid h

theorem dictCodec_find_of_lookup {α : Type} [DecidableEq α] (entries : List (α × String))
    (hnodup : (entries.map Prod.snd).Nodup) (x : α) (d : String)
    (h : entries.lookup x = some d) :
    entries.find? (fun e => e.2 == d) = some (x, d) := by
  induction entries with
  | nil => simp at h
  | cons e entries ih =>
    obtain ⟨a, p⟩ := e
    rw [List.map_cons, List.nodup_cons] at hnodup
    rw [List.lookup_cons] at h
    by_cases hx : x = a
    · subst hx
      simp at h
      subst h
      simp [List.find?_cons]
    · have hxa : (x == a) = false := by simpa using hx
      rw [hxa] at h
      have hfind := ih hnodup.2 h
      have hmem : d ∈ entries.map Prod.snd := by
        have := List.mem_of_find?_eq_some hfind
        exact List.mem_map_of_mem Prod.snd this
      have hpd : (p == d) = false := by
        have : p ≠ d := fun hpd => hnodup.1 (hpd ▸ hmem)
        simpa using this
      rw [List.find?_cons]
      simp only [hpd]
      exact hfind

theorem dictCodec_lawful {α : Type} [DecidableEq α] (entries : List (α × String))
    (hnodup : (entries.map Prod.snd).Nodup) (x : α) (d : String)
    (h : (dictCodec entries).Marshal x = .ok d) : (dictCodec entries).Unmarshal d = .ok x := by
  have hl : entries.lookup x = some d := by
    simp only [dictCodec] at h
    split at h
    · next d2 hd2 =>
      cases h
      exact hd2
    · cases h
  simp [dictCodec, dictCodec_find_of_lookup entries hnodup x d hl]

/-- C18: the invariant of the role registry. Starting from a state whose role table
is empty, after every sequence of `UserRolesInit`, `CreateRole`, `UpdateRole` and
`DeleteRole` calls no record is stored under the empty key, every stored record
decodes to a template whose ID is the key of the record, and that ID is not empty.
The codec is taken to unmarshal every payload it marshals back to the template, and
to marshal the four default templates. -/
theorem role_store_invariant (rc : Codec UserRolePermissionTemplate) (gc : Codec UserGroup)
    (ops : List RoleOp) (s : State)
    (hempty : s.roles = [])
    (hlaw : ∀ r d, rc.Marshal r = .ok d → rc.Unmarshal d = .ok r)
    (hdef : ∀ t ∈ defaultTemplates, ∃ d, rc.Marshal t = .ok d) :
    ¬ HasKey (runRoleOps rc gc ops s).roles "" ∧
    (∀ kv ∈ (runRoleOps rc gc ops s).roles,
      ∃ r, rc.Unmarshal kv.2 = .ok r ∧ r.ID = kv.1 ∧ r.ID ≠ "") ∧
    (∀ k d, (runRoleOps rc gc ops s).roles.lookup k = some d →
      ∃ r, rc.Unmarshal d = .ok r ∧ r.ID = k ∧ r.ID ≠ "") := by
  have hinv : RoleStoreInv rc (runRoleOps rc gc ops s).roles :=
    RoleStoreInv_runRoleOps rc gc ops s hlaw hdef (hempty ▸ RoleStoreInv_nil rc)
  have hall : ∀ kv ∈ (runRoleOps rc gc ops s).roles,
      ∃ r, rc.Unmarshal kv.2 = .ok r ∧ r.ID = kv.1 ∧ r.ID ≠ "" := by
    intro kv hkv
    obtain ⟨hne, r, hu, hid⟩ := hinv kv hkv
    exact ⟨r, hu, hid, hid ▸ hne⟩
  refine ⟨?_, hall, fun k d hl => hall (k, d) (mem_of_lookup_eq_some _ k d hl)⟩
  intro hkey
  obtain ⟨d, hd⟩ := (hasKey_iff_exists _ _).mp hkey
  exact (hinv ("", d) (mem_of_lookup_eq_some _ "" d hd)).1 rfl


theorem role_store_invariant_witness :
    freshState.roles = [] ∧
    HasKey (runRoleOps registryCodec groupCodec registryOps freshState).roles "viewer" ∧
    ¬ HasKey (runRoleOps registryCodec groupCodec registryOps freshState).roles "admin" ∧
    ¬ HasKey (runRoleOps registryCodec groupCodec registryOps freshState).roles "" ∧
    (∀ kv ∈ (runRoleOps registryCodec groupCodec registryOps freshState).roles,
      ∃ r, registryCodec.Unmarshal kv.2 = .ok r ∧ r.ID = kv.1 ∧ r.ID ≠ "") :=
  have hlaw : ∀ r d, registryCodec.Marshal r = .ok d → registryCodec.Unmarshal d = .ok r :=
    fun r d h => dictCodec_lawful _ (by decide) r d h
  have hdef : ∀ t ∈ defaultTemplates, ∃ d, registryCodec.Marshal t = .ok d := by
    intro t ht
    simp only [defaultTemplates, List.mem_cons, List.mem_singleton, List.not_mem_nil,
      or_false] at ht
    rcases ht with rfl | rfl | rfl | rfl
    · exact ⟨_, rfl⟩
    · exact ⟨_, rfl⟩
    · exact ⟨_, rfl⟩
    · exact ⟨_, rfl⟩
  have h := role_store_invariant registryCodec groupCodec registryOps freshState rfl hlaw hdef
  ⟨rfl, by decide, by decide, h.1, h.2.1⟩

/-! ## Rejected role deletions -/

/-- C19: `DeleteRole` is atomic on rejection. Whenever `DeleteRole rid` returns the
invalid-input error or a role-in-use error, the state it returns (role table, group
table and user directory) is the state before the call; and with an empty `rid` it
returns the invalid-input error and the unchanged state whatever the user directory
holds. -/
theorem DeleteRole_rejection_atomic (c : Codec UserGroup) (rid : UserRole) (s : State) :
    (∀ e, (DeleteRole c rid s).2 = some e →
      (e = Error.New "role id cannot be empty" ∨ IsRoleInUse e) →
      (DeleteRole c rid s).1 = s) ∧
    (rid = "" → ∀ users : List User,
      DeleteRole c rid { s with users := users }
        = ({ s with users := users }, some (Error.New "role id cannot be empty"))) := by
  constructor
  · intro e he _
    unfold DeleteRole at he ⊢
    split
    · rfl
    · next hrid =>
      rw [if_neg hrid] at he
      simp only [GetUsersDB] at he ⊢
      split
      · rfl
      · next hscan =>
        rw [hscan] at he
        simp [DeleteRecord] at he
  · intro hrid users
    simp [DeleteRole, hrid]

theorem DeleteRole_rejection_atomic_witness :
    ((DeleteRole groupCodec "viewer" directState).2 = some (Error.New
        "active roles cannot be deleted.switch existing users to a new role before deleting") ∧
      (DeleteRole groupCodec "viewer" directState).1 = directState) ∧
    (DeleteRole groupCodec "" directState
        = (directState, some (Error.New "role id cannot be empty")) ∧
      DeleteRole groupCodec "" { directState with users := [] }
        = ({ directState with users := [] }, some (Error.New "role id cannot be empty"))) :=
  have h := DeleteRole_rejection_atomic groupCodec "viewer" directState
  have h0 := DeleteRole_rejection_atomic groupCodec "" directState
  ⟨⟨by decide, h.1 _ (by decide) (Or.inr (Or.inr rfl))⟩,
    ⟨h0.2 rfl directState.users, h0.2 rfl []⟩⟩


/-! ## The frame of group deletion -/

theorem map_replace_eq_self (user : User) (l : List User)
    (h : ∀ v ∈ l, v.UserName ≠ user.UserName) :
    l.map (fun u => if u.UserName = user.UserName then user else u) = l := by
  induction l with
  | nil => rfl
  | cons v l ih =>
    rw [List.map_cons, if_neg (h v (List.mem_cons_self _ _)),
      ih (fun w hw => h w (List.mem_cons_of_mem _ hw))]

theorem UpsertUser_at (pre rest : List User) (u user : User) (s : State)
    (hs : s.users = pre ++ u :: rest) (hname : u.UserName = user.UserName)
    (hpre : ∀ v ∈ pre, v.UserName ≠ user.UserName)
    (hrest : ∀ v ∈ rest, v.UserName ≠ user.UserName) :
    (UpsertUser user s).1.users = pre ++ user :: rest := by
  have hany : s.users.any (fun v => v.UserName == user.UserName) = true := by
    rw [hs]
    simp [hname]
  unfold UpsertUser
  rw [if_pos hany]
  show s.users.map (fun v => if v.UserName = user.UserName then user else v) = _
  rw [hs, List.map_append, List.map_cons, if_pos hname, map_replace_eq_self user pre hpre,
    map_replace_eq_self user rest hrest]

theorem DeleteUserGroup_loop_users (gid : UserGroupID) (users pre : List User) (s : State)
    (hs : s.users = pre.map (deleteUserGroupKey gid) ++ users)
    (hnodup : ((pre ++ users).map User.UserName).Nodup) :
    (DeleteUserGroup.loop gid users s).users = (pre ++ users).map (deleteUserGroupKey gid) := by
  induction users generalizing pre s with
  | nil => simpa [DeleteUserGroup.loop] using hs
  | cons u users ih =>
    unfold DeleteUserGroup.loop
    have hnd := hnodup
    rw [List.map_append, List.map_cons, List.nodup_append, List.nodup_cons] at hnd
    obtain ⟨_, ⟨hu, _⟩, hdisj⟩ := hnd
    have hpre : ∀ v ∈ pre.map (deleteUserGroupKey gid),
        v.UserName ≠ (deleteUserGroupKey gid u).UserName := by
      intro v hv hn
      obtain ⟨w, hw, rfl⟩ := List.mem_map.mp hv
      exact hdisj (List.mem_map_of_mem User.UserName hw)
        (by rw [show w.UserName = u.UserName from hn]; exact List.mem_cons_self _ _)
    have hrest : ∀ v ∈ users, v.UserName ≠ (deleteUserGroupKey gid u).UserName := by
      intro v hv hn
      exact hu (by
        rw [show u.UserName = v.UserName from hn.symm]
        exact List.mem_map_of_mem User.UserName hv)
    have hstep := UpsertUser_at (pre.map (deleteUserGroupKey gid)) users u
      (deleteUserGroupKey gid u) s hs rfl hpre hrest
    have := ih (pre ++ [u]) (UpsertUser (deleteUserGroupKey gid u) s).1
      (by rw [hstep]; simp) (by simpa using hnodup)
    simpa using this

/-- C20: the frame of the group-deletion cascade. In a user directory whose user
names are distinct, `DeleteUserGroup gid` leaves the directory with the same users
in the same order, each with `gid` deleted from its `UserGroups` and nothing else
changed: the user name, `PlatformRoleID` and direct `NetworkRoles` are those of
before, and every group ID other than `gid` is in the user's `UserGroups` exactly
when it was before; a user that did not hold `gid` is equal to what it was; the role
table is unchanged and so is the record under every group key other than `gid`. -/
theorem DeleteUserGroup_frame (gid : UserGroupID) (s : State)
    (hnodup : (s.users.map User.UserName).Nodup) :
    (DeleteUserGroup gid s).1.users = s.users.map (deleteUserGroupKey gid) ∧
    (∀ u : User, (deleteUserGroupKey gid u).UserName = u.UserName ∧
      (deleteUserGroupKey gid u).PlatformRoleID = u.PlatformRoleID ∧
      (deleteUserGroupKey gid u).NetworkRoles = u.NetworkRoles ∧
      ∀ g, g ≠ gid → (g ∈ (deleteUserGroupKey gid u).UserGroups ↔ g ∈ u.UserGroups)) ∧
    (∀ u : User, gid ∉ u.UserGroups → deleteUserGroupKey gid u = u) ∧
    (∀ u ∈ s.users, gid ∉ u.UserGroups → u ∈ (DeleteUserGroup gid s).1.users) ∧
    (DeleteUserGroup gid s).1.users.map User.UserName = s.users.map User.UserName ∧
    (DeleteUserGroup gid s).1.roles = s.roles ∧
    (∀ k, k ≠ gid → (DeleteUserGroup gid s).1.groups.lookup k = s.groups.lookup k) := by
  have hdel : DeleteUserGroup gid s
      = DeleteRecord .USER_GROUPS_TABLE_NAME gid (DeleteUserGroup.loop gid s.users s) := rfl
  have husers : (DeleteUserGroup gid s).1.users = s.users.map (deleteUserGroupKey gid) := by
    rw [hdel]
    show (DeleteUserGroup.loop gid s.users s).users = _
    have := DeleteUserGroup_loop_users gid s.users [] s (by simp) (by simpa using hnodup)
    simpa using this
  have hsame : ∀ u : User, gid ∉ u.UserGroups → deleteUserGroupKey gid u = u := by
    intro u hu
    have hf : u.UserGroups.filter (fun g => g != gid) = u.UserGroups := by
      rw [List.filter_eq_self]
      intro g hg
      have : g ≠ gid := fun h => hu (h ▸ hg)
      simpa using this
    simp [deleteUserGroupKey, hf]
  have htables := DeleteUserGroup_loop_tables gid s.users s
  refine ⟨husers, ?_, hsame, ?_, ?_, ?_, ?_⟩
  · intro u
    refine ⟨rfl, rfl, rfl, ?_⟩
    intro g hg
    simp [deleteUserGroupKey, hg]
  · intro u hu hgid
    rw [husers]
    have := List.mem_map_of_mem (deleteUserGroupKey gid) hu
    rwa [hsame u hgid] at this
  · rw [husers, List.map_map]
    rfl
  · rw [hdel]
    show (DeleteUserGroup.loop gid s.users s).roles = _
    exact htables.1
  · intro k hk
    rw [hdel]
    show ((DeleteUserGroup.loop gid s.users s).groups.filter (fun kv => kv.1 != gid)).lookup k = _
    rw [lookup_filter_ne_key, if_neg hk, htables.2]

theorem DeleteUserGroup_frame_witness :
    (membersState.users.map User.UserName).Nodup ∧
    (DeleteUserGroup "devs" membersState).1.users
      = [{ UserName := "alice", PlatformRoleID := "admin", UserGroups := ["ops"] },
         { UserName := "bob", PlatformRoleID := "admin", NetworkRoles := ["viewer"] },
         { UserName := "carol", PlatformRoleID := "super-admin" }] ∧
    (DeleteUserGroup "devs" membersState).1.roles = membersState.roles ∧
    (DeleteUserGroup "devs" membersState).1.groups.lookup "ops"
      = membersState.groups.lookup "ops" :=
  have h := DeleteUserGroup_frame "devs" membersState (by decide)
  ⟨by decide, h.1, h.2.2.2.2.2.1, h.2.2.2.2.2.2 "ops" (by decide)⟩

end Netmaker
